import Mathlib

/-!
kube-ovn: pod network provisioning (CNI plugin and daemon).

A shallow embedding of `cmd/cni/cni.go` and `pkg/daemon/ovs.go`.

* Go strings are byte sequences: `len`, slicing, `strings.Split`,
  `strings.HasPrefix` and `strings.TrimPrefix` all work on bytes.  A Go string
  is a `List UInt8` here, and the "characters" of the specification are bytes.
* A Go function returning `(T, error)` returns `Except Str T`, the error being
  its message.  A run-time panic (slice bounds out of range) is `none`.
* Code that acts on the host (netlink, `ovs-vsctl`, namespaces) is a function
  from a `World` to a result and the `World` it leaves behind.
-/

namespace KubeOvn

deriving instance DecidableEq for Except

/-! ## Strings -/

/-- A Go string: an immutable sequence of bytes. -/
abbrev Str := List UInt8

/-- The Go string written by a literal (its UTF-8 encoding). -/
def str (s : String) : Str := s.toUTF8.data.toList

/-- Go's slice expression `s[lo:hi]` on a string; `none` is the run-time panic
"slice bounds out of range". -/
def slice (s : Str) (lo hi : Nat) : Option Str :=
  if lo ≤ hi ∧ hi ≤ s.length then some ((s.drop lo).take (hi - lo)) else none

/-- Go's `strings.Split(s, sep)` for a one-byte separator: the substrings of `s`
between the occurrences of `sep`, the empty ones included. -/
def Split (s : Str) (sep : UInt8) : List Str :=
  match s with
  | [] => [[]]
  | c :: cs =>
    if c = sep then [] :: Split cs sep
    else
      match Split cs sep with
      | [] => [[c]]
      | seg :: rest => (c :: seg) :: rest

/-- Go's `strings.HasPrefix(s, p)`. -/
def HasPrefix (s p : Str) : Bool := p.isPrefixOf s

/-- Go's `strings.TrimPrefix(s, p)`. -/
def TrimPrefix (s p : Str) : Str := if HasPrefix s p then s.drop p.length else s

/-! ## cmd/cni/cni.go -/

/-- The constant `checkPointfile`. -/
def checkPointfile : Str := str "/var/lib/kubelet/device-plugins/kubelet_internal_checkpoint"

/-- The allow-list `resourceNames`. -/
def resourceNames : List Str :=
  [str "mellanox.com/cx5_sriov_switchdev", str "mellanox.com/cx4lx_sriov_switchdev"]

/-- Modelled from the spec: the entry type of the kubelet device-plugin
checkpoint (`types.checkpointFileData` is not declared in the sources): "a list
of {podUID, resourceName, deviceIDs[]} entries". -/
structure PodDevicesEntry where
  PodUID : Str
  ResourceName : Str
  DeviceIDs : List Str
  deriving DecidableEq, Repr

/-- Modelled from the spec: the payload of the checkpoint document. -/
structure checkpointData where
  PodDeviceEntries : List PodDevicesEntry
  deriving DecidableEq, Repr

/-- Modelled from the spec: the checkpoint document. -/
structure checkpointFileData where
  Data : checkpointData
  deriving DecidableEq, Repr

/-- The inner loop of `getDeviceIDs`, `for device := range resourceNames`.  The
loop variable is compared with `pod.ResourceName` and appended to a `[]string`,
so it is read as the element of the allow-list. -/
def getDeviceIDs.names (pod : PodDevicesEntry) (deviceIDs : List Str) : List Str → List Str
  | [] => deviceIDs
  | device :: rest =>
    if device = pod.ResourceName then getDeviceIDs.names pod (deviceIDs ++ [device]) rest
    else getDeviceIDs.names pod deviceIDs rest

/-- The outer loop of `getDeviceIDs`, `for _, pod := range cpd.Data.PodDeviceEntries`. -/
def getDeviceIDs.entries (podID : Str) (deviceIDs : List Str) : List PodDevicesEntry → List Str
  | [] => deviceIDs
  | pod :: rest =>
    if pod.PodUID = podID then
      getDeviceIDs.entries podID (getDeviceIDs.names pod deviceIDs resourceNames) rest
    else getDeviceIDs.entries podID deviceIDs rest

/-- The function `getDeviceIDs(podID)`.  Reading the checkpoint file and decoding
its JSON are the two parameters; the result is the pair `(deviceIDs, err)`. -/
def getDeviceIDs (readFile : Str → Except Str Str)
    (unmarshal : Str → Except Str checkpointFileData) (podID : Str) :
    List Str × Option Str :=
  let deviceIDs : List Str := []
  match readFile checkPointfile with
  | .error err =>
    (deviceIDs, some (str "failed to reading file " ++ checkPointfile ++ str "\n" ++ err
      ++ str "\n"))
  | .ok rawBytes =>
    match unmarshal rawBytes with
    | .error err => (deviceIDs, some (str "failed to unmarshalling raw bytes " ++ err))
    | .ok cpd => (getDeviceIDs.entries podID deviceIDs cpd.Data.PodDeviceEntries, none)

/-- The loop of `parseValueFromArgs` over the segments of `CNI_ARGS`. -/
def parseValueFromArgs.loop (key : Str) : List Str → Option Str
  | [] => none
  | arg :: rest =>
    if HasPrefix arg (key ++ str "=") then
      let podName := TrimPrefix arg (key ++ str "=")
      if podName.length > 0 then some podName else parseValueFromArgs.loop key rest
    else parseValueFromArgs.loop key rest

/-- The function `parseValueFromArgs(key, argString)`; 59 is the byte `;`. -/
def parseValueFromArgs (key argString : Str) : Except Str Str :=
  if argString = [] then .error (str "CNI_ARGS is required")
  else
    match parseValueFromArgs.loop key (Split argString 59) with
    | some podName => .ok podName
    | none => .error (key ++ str " is required in CNI_ARGS")

/-! ## pkg/daemon/ovs.go: link names -/

/-- The function `generateNicName(containerID)`:
`fmt.Sprintf("%s_h", containerID[0:12]), fmt.Sprintf("%s_c", containerID[0:12])`.
It panics when the ID has fewer than 12 bytes. -/
def generateNicName (containerID : Str) : Option (Str × Str) :=
  match slice containerID 0 12 with
  | none => none
  | some p => some (p ++ str "_h", p ++ str "_c")

/-! ## The host: links, namespaces, routes, the bridge

The daemon acts on the host through netlink, `ovs-vsctl`, `sysctl` and network
namespaces.  `World` is the part of the host these calls read and change, and
every call may also fail for a reason of its own (`Env.fault`), which is how
the error branches of the code are reached. -/

/-- The type `net.HardwareAddr`. -/
abbrev HardwareAddr := List UInt8

/-- The type `net.IP`; `net.ParseIP` gives `nil` (`none`) on text that is no address. -/
abbrev IP := List UInt8

/-- The type `net.IPNet`. -/
structure IPNet where
  IP : IP
  Mask : List UInt8
  deriving DecidableEq, Repr

/-- Modelled from the spec: the address family computed by `util.CheckProtocol`
(not in the sources), "addressFamily ∈ {IPv4, IPv6}"; the two values are the
constants `kubeovnv1.ProtocolIPv4` and `kubeovnv1.ProtocolIPv6`. -/
inductive Protocol
  | ProtocolIPv4
  | ProtocolIPv6
  deriving DecidableEq, Repr

/-- A network namespace: `none` is the namespace the daemon runs in (the host),
`some path` the namespace bound at `path`. -/
abbrev NetNS := Option Str

/-- The host's own namespace. -/
def hostNS : NetNS := none

/-- The constant `netlink.SCOPE_UNIVERSE`. -/
def SCOPE_UNIVERSE : Nat := 0

/-- The type `netlink.Route`, with the fields the code sets. -/
structure Route where
  LinkIndex : Nat
  Scope : Nat
  Dst : Option IPNet
  Gw : Option IP
  deriving DecidableEq, Repr

/-- A network device.  `Index` identifies the device (`World.distinct`); it is
kept when the device moves to another namespace, which the code relies on when
it goes on using `containerLink` after `LinkSetNsFd`.  `peer` is the index of
the other end of a veth pair. -/
structure Link where
  Index : Nat
  Name : Str
  netns : NetNS
  HardwareAddr : HardwareAddr
  up : Bool
  MTU : Nat
  addrs : List IPNet
  peer : Option Nat
  deriving DecidableEq, Repr

/-- A port of the bridge `br-int`: its name and `external_ids:iface-id`. -/
structure Port where
  name : Str
  ifaceID : Str
  deriving DecidableEq, Repr

/-- A bandwidth rule of a pod. -/
structure Bandwidth where
  podName : Str
  podNamespace : Str
  ingress : Str
  egress : Str
  deriving DecidableEq, Repr

/-- One call on the host. -/
inductive Op
  | LinkAdd (name peerName : Str) (mtu : Nat)
  | LinkDel (index : Nat)
  | LinkByName (netns : NetNS) (name : Str)
  | LinkSetHardwareAddr (index : Nat) (mac : HardwareAddr)
  | LinkSetUp (index : Nat)
  | LinkSetDown (index : Nat)
  | LinkSetName (index : Nat) (name : Str)
  | LinkSetMTU (index : Nat) (mtu : Nat)
  | LinkSetNsFd (index : Nat) (netns : Str)
  | AddrReplace (index : Nat) (addr : IPNet)
  | RouteAdd (route : Route)
  | Sysctl (name value : Str)
  | GetNS (path : Str)
  | WithNetNSPath (path : Str)
  | AddPort (port ifaceID : Str)
  | DelPort (port : Str)
  | SetPodBandwidth (podName podNamespace ingress egress : Str)
  | ClearPodBandwidth (podName podNamespace : Str)
  deriving DecidableEq, Repr

/-- The state of the host. `log` lists the calls made so far, failed ones
included, oldest first.  No two devices have the same index. -/
structure World where
  links : List Link
  ports : List Port
  qos : List Bandwidth
  routes : List (NetNS × Route)
  sysctls : List (NetNS × Str × Str)
  log : List Op
  distinct : (links.map Link.Index).Nodup
  deriving DecidableEq, Repr

/-- What the code takes from outside the host state: its configuration, the
parsers of the Go library, the SR-IOV lookups in sysfs, and which calls fail. -/
structure Env where
  /-- The setting `csh.Config.MTU`. -/
  MTU : Nat
  /-- Whether a call fails for a reason of its own, given the calls made before
  it, and the text of the error. -/
  fault : List Op → Op → Option Str
  /-- The combined output of a command. -/
  output : List Op → Op → Str
  /-- The function `net.ParseMAC`. -/
  ParseMAC : Str → Except Str HardwareAddr
  /-- The function `netlink.ParseAddr`. -/
  ParseAddr : Str → Except Str IPNet
  /-- The function `net.ParseIP`. -/
  ParseIP : Str → Option IP
  /-- The function `util.CheckProtocol`. -/
  CheckProtocol : Str → Protocol
  /-- The function `sriovnet.GetNetDevicesFromPci`. -/
  GetNetDevicesFromPci : Str → Except Str (List Str)
  /-- The function `sriovnet.GetUplinkRepresentor`. -/
  GetUplinkRepresentor : Str → Except Str Str
  /-- The function `sriovnet.GetVfIndexByPciAddress`. -/
  GetVfIndexByPciAddress : Str → Except Str Nat
  /-- The function `sriovnet.GetVfRepresentor`. -/
  GetVfRepresentor : Str → Nat → Except Str Str
  /-- The hardware address the kernel gives a new device. -/
  newHardwareAddr : Nat → HardwareAddr
  /-- How `%s` prints a `netlink.Link`. -/
  showLink : Link → Str
  /-- How `%q` prints a string. -/
  quote : Str → Str

/-- The error of `netlink.LinkByName`: `netlink.LinkNotFoundError` or another
error. -/
inductive LookupError
  | LinkNotFoundError (msg : Str)
  | other (msg : Str)
  deriving DecidableEq, Repr

/-- The method `Error()`. -/
def LookupError.Error : LookupError → Str
  | .LinkNotFoundError msg => msg
  | .other msg => msg

/-- The errno texts the kernel answers with. -/
def ENODEV : Str := str "no such device"

/-- The errno text for a name or route already present. -/
def EEXIST : Str := str "file exists"

/-- The world with one more call in its log. -/
def World.logged (w : World) (op : Op) : World := { w with log := w.log ++ [op] }

/-- One call on the host: it is logged, fails if the environment says so, and
otherwise runs. -/
def invoke {α : Type} (env : Env) (op : Op) (w : World)
    (run : World → Except Str α × World) : Except Str α × World :=
  match env.fault w.log op with
  | some err => (.error err, w.logged op)
  | none => run (w.logged op)

/-- Is there a device with this index in this namespace? -/
def World.hasLink (w : World) (cur : NetNS) (index : Nat) : Bool :=
  w.links.any (fun l => l.Index = index ∧ l.netns = cur)

/-- Change the device with this index in this namespace; the change `f` keeps
the index. -/
def World.modifyLink (w : World) (cur : NetNS) (index : Nat) (f : Link → Link)
    (hf : ∀ l, (f l).Index = l.Index) : World :=
  { w with
    links := w.links.map (fun l => if l.Index = index ∧ l.netns = cur then f l else l)
    distinct := by
      have hmap : (w.links.map
          (fun l => if l.Index = index ∧ l.netns = cur then f l else l)).map Link.Index =
          w.links.map Link.Index := by
        rw [List.map_map]
        apply List.map_congr_left
        intro l _
        simp only [Function.comp]
        split
        · exact hf l
        · rfl
      rw [hmap]
      exact w.distinct }

/-- A netlink call that changes one device, given by index. -/
def linkSet (env : Env) (op : Op) (cur : NetNS) (index : Nat) (f : Link → Link)
    (hf : ∀ l, (f l).Index = l.Index) (w : World) : Except Str Unit × World :=
  invoke env op w fun w =>
    if w.hasLink cur index then (.ok (), w.modifyLink cur index f hf) else (.error ENODEV, w)

/-- An index no device has. -/
def World.freshIndex (w : World) : Nat := (w.links.map Link.Index).foldr max 0 + 1

/-- The world with a new veth pair: two devices with the next two indexes. -/
def World.addPair (w : World) (veth peer : Link) (hv : veth.Index = w.freshIndex)
    (hp : peer.Index = w.freshIndex + 1) : World :=
  { w with
    links := w.links ++ [veth, peer]
    distinct := by
      have hfresh : ∀ (ls : List Link), ∀ l ∈ ls,
          l.Index < (ls.map Link.Index).foldr max 0 + 1 := by
        intro ls
        induction ls with
        | nil => simp
        | cons a rest ih =>
          intro l hl
          simp only [List.map_cons, List.foldr_cons]
          rcases List.mem_cons.1 hl with rfl | hl
          · omega
          · have := ih l hl
            omega
      rw [List.map_append, List.nodup_append]
      refine ⟨w.distinct, ?_, ?_⟩
      · simp only [List.map_cons, List.map_nil, List.nodup_cons, List.mem_singleton,
          List.not_mem_nil, not_false_eq_true, List.nodup_nil, and_true]
        omega
      · intro i hi hi2
        simp only [List.mem_map] at hi
        obtain ⟨l, hl, rfl⟩ := hi
        have := hfresh w.links l hl
        simp only [List.map_cons, List.map_nil, List.mem_cons, List.mem_singleton,
          List.not_mem_nil, or_false] at hi2
        unfold World.freshIndex at hv hp
        omega }

/-- The world without the devices that fail the test `keep`. -/
def World.keepLinks (w : World) (keep : Link → Bool) : World :=
  { w with
    links := w.links.filter keep
    distinct := w.distinct.sublist ((List.filter_sublist w.links).map Link.Index) }

/-- The call `netlink.LinkByName(name)` made in namespace `cur`. -/
def LinkByName (env : Env) (cur : NetNS) (name : Str) (w : World) :
    Except LookupError Link × World :=
  match env.fault w.log (.LinkByName cur name) with
  | some err => (.error (.other err), w.logged (.LinkByName cur name))
  | none =>
    match w.links.find? (fun l => l.Name = name ∧ l.netns = cur) with
    | some l => (.ok l, w.logged (.LinkByName cur name))
    | none =>
      (.error (.LinkNotFoundError (str "Link not found")), w.logged (.LinkByName cur name))

/-- The call `netlink.LinkAdd(&veth)` for a veth pair, made in the host namespace:
both ends are created there, down, with the given MTU.  The result is the index
the call stores in `veth`. -/
def LinkAdd (env : Env) (name peerName : Str) (mtu : Nat) (w : World) :
    Except Str Nat × World :=
  invoke env (.LinkAdd name peerName mtu) w fun w =>
    if w.links.any (fun l => (l.Name = name ∨ l.Name = peerName) ∧ l.netns = hostNS) then
      (.error EEXIST, w)
    else
      let n := w.freshIndex
      let veth : Link := ⟨n, name, hostNS, env.newHardwareAddr n, false, mtu, [], some (n + 1)⟩
      let peer : Link :=
        ⟨n + 1, peerName, hostNS, env.newHardwareAddr (n + 1), false, mtu, [], some n⟩
      (.ok n, w.addPair veth peer rfl rfl)

/-- The index `netlink` acts on for a link value: the one it holds or, when that
is 0, the one of the device of that name (`ensureIndex`). -/
def ensureIndex (w : World) (cur : NetNS) (name : Str) (index : Nat) : Nat :=
  if index = 0 then
    match w.links.find? (fun l => l.Name = name ∧ l.netns = cur) with
    | some l => l.Index
    | none => 0
  else index

/-- The call `netlink.LinkDel(link)` made in namespace `cur`: the device goes, and
with it the other end of a veth pair, wherever that is, and the routes through
them. -/
def LinkDel (env : Env) (cur : NetNS) (name : Str) (index : Nat) (w : World) :
    Except Str Unit × World :=
  let i := ensureIndex w cur name index
  invoke env (.LinkDel i) w fun w =>
    if w.hasLink cur i then
      let gone := w.links.filter (fun l => (l.Index = i ∧ l.netns = cur) ∨ l.peer = some i)
      let routes :=
        w.routes.filter (fun r => ¬ gone.any (fun l => l.netns = r.1 ∧ l.Index = r.2.LinkIndex))
      let w := w.keepLinks (fun l => ¬ (l.Index = i ∧ l.netns = cur) ∧ l.peer ≠ some i)
      (.ok (), { w with routes := routes })
    else (.error ENODEV, w)

/-- The call `netlink.LinkSetHardwareAddr(link, mac)`. -/
def LinkSetHardwareAddr (env : Env) (cur : NetNS) (link : Link) (mac : HardwareAddr) (w : World) :
    Except Str Unit × World :=
  linkSet env (.LinkSetHardwareAddr link.Index mac) cur link.Index
    (fun l => { l with HardwareAddr := mac }) (fun _ => rfl) w

/-- The call `netlink.LinkSetUp(link)`. -/
def LinkSetUp (env : Env) (cur : NetNS) (link : Link) (w : World) : Except Str Unit × World :=
  linkSet env (.LinkSetUp link.Index) cur link.Index (fun l => { l with up := true })
    (fun _ => rfl) w

/-- The call `netlink.LinkSetDown(link)`. -/
def LinkSetDown (env : Env) (cur : NetNS) (link : Link) (w : World) : Except Str Unit × World :=
  linkSet env (.LinkSetDown link.Index) cur link.Index (fun l => { l with up := false })
    (fun _ => rfl) w

/-- The call `netlink.LinkSetMTU(link, mtu)`. -/
def LinkSetMTU (env : Env) (cur : NetNS) (link : Link) (mtu : Nat) (w : World) :
    Except Str Unit × World :=
  linkSet env (.LinkSetMTU link.Index mtu) cur link.Index (fun l => { l with MTU := mtu })
    (fun _ => rfl) w

/-- The call `netlink.LinkSetName(link, name)`: refused when another device of the
namespace has the name. -/
def LinkSetName (env : Env) (cur : NetNS) (link : Link) (name : Str) (w : World) :
    Except Str Unit × World :=
  invoke env (.LinkSetName link.Index name) w fun w =>
    if w.links.any (fun l => l.Name = name ∧ l.netns = cur ∧ l.Index ≠ link.Index) then
      (.error EEXIST, w)
    else if w.hasLink cur link.Index then
      (.ok (), w.modifyLink cur link.Index (fun l => { l with Name := name }) (fun _ => rfl))
    else (.error ENODEV, w)

/-- The call `netlink.LinkSetNsFd(link, fd)`, made in the host namespace: the device
moves to the namespace and is there down and without addresses. -/
def LinkSetNsFd (env : Env) (link : Link) (netns : Str) (w : World) : Except Str Unit × World :=
  linkSet env (.LinkSetNsFd link.Index netns) hostNS link.Index
    (fun l => { l with netns := some netns, up := false, addrs := [] }) (fun _ => rfl) w

/-- The call `netlink.AddrReplace(link, addr)`: the address is on the device
afterwards, once. -/
def AddrReplace (env : Env) (cur : NetNS) (link : Link) (addr : IPNet) (w : World) :
    Except Str Unit × World :=
  linkSet env (.AddrReplace link.Index addr) cur link.Index
    (fun l => { l with addrs := if addr ∈ l.addrs then l.addrs else l.addrs ++ [addr] })
    (fun _ => rfl) w

/-- The call `netlink.RouteAdd(&route)` made in namespace `cur`: refused when
the namespace has a route to the same destination or no device of that index. -/
def RouteAdd (env : Env) (cur : NetNS) (route : Route) (w : World) : Except Str Unit × World :=
  invoke env (.RouteAdd route) w fun w =>
    if w.routes.any (fun r => r.1 = cur ∧ r.2.Dst = route.Dst) then (.error EEXIST, w)
    else if w.hasLink cur route.LinkIndex then
      (.ok (), { w with routes := w.routes ++ [(cur, route)] })
    else (.error ENODEV, w)

/-- The call `sysctl.Sysctl(name, value)` made in namespace `cur`. -/
def Sysctl (env : Env) (cur : NetNS) (name value : Str) (w : World) : Except Str Unit × World :=
  invoke env (.Sysctl name value) w fun w =>
    let others := w.sysctls.filter (fun s => ¬ (s.1 = cur ∧ s.2.1 = name))
    (.ok (), { w with sysctls := (cur, name, value) :: others })

/-- The call `ns.GetNS(path)`; the handle is the path. -/
def GetNS (env : Env) (path : Str) (w : World) : Except Str Str × World :=
  invoke env (.GetNS path) w fun w => (.ok path, w)

/-- The call `ns.WithNetNSPath(path, f)`: `f` runs in the namespace at `path`. -/
def WithNetNSPath (env : Env) (path : Str) (w : World)
    (f : NetNS → World → Except Str Unit × World) : Except Str Unit × World :=
  invoke env (.WithNetNSPath path) w fun w => f (some path) w

/-- The command `ovs-vsctl --may-exist add-port br-int port -- set interface
port external_ids:iface-id=ifaceID`: its combined output and its error.  The
command is one transaction: when it fails the bridge is as before. -/
def AddPort (env : Env) (port ifaceID : Str) (w : World) : (Str × Option Str) × World :=
  let output := env.output w.log (.AddPort port ifaceID)
  match env.fault w.log (.AddPort port ifaceID) with
  | some err => ((output, some err), w.logged (.AddPort port ifaceID))
  | none =>
    let w := w.logged (.AddPort port ifaceID)
    let ports :=
      if w.ports.any (fun p => p.name = port) then
        w.ports.map (fun p => if p.name = port then { p with ifaceID := ifaceID } else p)
      else w.ports ++ [⟨port, ifaceID⟩]
    ((output, none), { w with ports := ports })

/-- The command `ovs-vsctl --if-exists --with-iface del-port br-int port`. -/
def DelPort (env : Env) (port : Str) (w : World) : (Str × Option Str) × World :=
  let output := env.output w.log (.DelPort port)
  match env.fault w.log (.DelPort port) with
  | some err => ((output, some err), w.logged (.DelPort port))
  | none =>
    let w := w.logged (.DelPort port)
    ((output, none), { w with ports := w.ports.filter (fun p => p.name ≠ port) })

/-- Modelled from the spec: `ovs.SetPodBandwidth` (package `pkg/ovs` is not in
the sources), "applies ... ingress/egress shaping on the host-side bridge
port, keyed by podName+podNamespace". -/
def SetPodBandwidth (env : Env) (podName podNamespace ingress egress : Str) (w : World) :
    Except Str Unit × World :=
  invoke env (.SetPodBandwidth podName podNamespace ingress egress) w fun w =>
    let others := w.qos.filter (fun q => ¬ (q.podName = podName ∧ q.podNamespace = podNamespace))
    (.ok (), { w with qos := others ++ [⟨podName, podNamespace, ingress, egress⟩] })

/-- Modelled from the spec: `ovs.ClearPodBandwidth` (package `pkg/ovs` is not in
the sources), "clears ingress/egress shaping on the host-side bridge port,
keyed by podName+podNamespace". -/
def ClearPodBandwidth (env : Env) (podName podNamespace : Str) (w : World) :
    Except Str Unit × World :=
  invoke env (.ClearPodBandwidth podName podNamespace) w fun w =>
    let others := w.qos.filter (fun q => ¬ (q.podName = podName ∧ q.podNamespace = podNamespace))
    (.ok (), { w with qos := others })

/-! ## pkg/daemon/ovs.go -/

/-- The function `configureHostNic(nicName, macAddr)`. -/
def configureHostNic (env : Env) (nicName : Str) (macAddr : HardwareAddr) (w : World) :
    Except Str Unit × World :=
  match LinkByName env hostNS nicName w with
  | (.error err, w) =>
    (.error (str "can not find host nic " ++ nicName ++ str " " ++ err.Error), w)
  | (.ok hostLink, w) =>
    match LinkSetHardwareAddr env hostNS hostLink macAddr w with
    | (.error err, w) =>
      (.error (str "can not set mac address to host nic " ++ nicName ++ str " " ++ err), w)
    | (.ok _, w) =>
      match LinkSetUp env hostNS hostLink w with
      | (.error err, w) =>
        (.error (str "can not set host nic " ++ nicName ++ str " up " ++ err), w)
      | (.ok _, w) => (.ok (), w)

/-- The result of `net.ParseCIDR("0.0.0.0/0")`. -/
def defaultNet4 : IPNet := ⟨[0, 0, 0, 0], [0, 0, 0, 0]⟩

/-- The result of `net.ParseCIDR("::/0")`. -/
def defaultNet6 : IPNet :=
  ⟨[0, 0, 0, 0, 0, 0, 0, 0, 0, 0, 0, 0, 0, 0, 0, 0],
    [0, 0, 0, 0, 0, 0, 0, 0, 0, 0, 0, 0, 0, 0, 0, 0]⟩

/-- The function `configureContainerNic(nicName, ipAddr, gateway, macAddr, netns)`;
`netns` is the handle `ns.GetNS` gave. -/
def configureContainerNic (env : Env) (nicName ipAddr gateway : Str) (macAddr : HardwareAddr)
    (netns : Str) (w : World) : Except Str Unit × World :=
  match LinkByName env hostNS nicName w with
  | (.error err, w) =>
    (.error (str "can not find container nic " ++ nicName ++ str " " ++ err.Error), w)
  | (.ok containerLink, w) =>
    match LinkSetNsFd env containerLink netns w with
    | (.error err, w) => (.error (str "failed to link netns " ++ err), w)
    | (.ok _, w) =>
      WithNetNSPath env netns w fun cur w =>
        match LinkSetName env cur containerLink (str "eth0") w with
        | (.error err, w) => (.error err, w)
        | (.ok _, w) =>
          match (match env.CheckProtocol ipAddr with
            | .ProtocolIPv6 =>
              Sysctl env cur (str "net.ipv6.conf.all.disable_ipv6") (str "0") w
            | .ProtocolIPv4 => (.ok (), w)) with
          | (.error err, w) => (.error (str "failed to enable ipv6 on all nic " ++ err), w)
          | (.ok _, w) =>
            match env.ParseAddr ipAddr with
            | .error err => (.error (str "can not parse " ++ ipAddr ++ str " " ++ err), w)
            | .ok addr =>
              match AddrReplace env cur containerLink addr w with
              | (.error err, w) =>
                (.error (str "can not add address to container nic " ++ err), w)
              | (.ok _, w) =>
                match LinkSetHardwareAddr env cur containerLink macAddr w with
                | (.error err, w) =>
                  (.error (str "can not set mac address to container nic " ++ err), w)
                | (.ok _, w) =>
                  match LinkSetUp env cur containerLink w with
                  | (.error err, w) =>
                    (.error (str "can not set container nic " ++ nicName ++ str " up " ++ err), w)
                  | (.ok _, w) =>
                    match (match env.CheckProtocol ipAddr with
                      | .ProtocolIPv4 =>
                        RouteAdd env cur
                          ⟨containerLink.Index, SCOPE_UNIVERSE, some defaultNet4,
                            env.ParseIP gateway⟩ w
                      | .ProtocolIPv6 =>
                        RouteAdd env cur
                          ⟨containerLink.Index, SCOPE_UNIVERSE, some defaultNet6,
                            env.ParseIP gateway⟩ w) with
                    | (.error err, w) => (.error (str "config gateway failed " ++ err), w)
                    | (.ok _, w) => (.ok (), w)

/-- The function `renameLink(curName, newName)`. -/
def renameLink (env : Env) (curName newName : Str) (w : World) : Except Str Unit × World :=
  match LinkByName env hostNS curName w with
  | (.error err, w) => (.error err.Error, w)
  | (.ok link, w) =>
    match LinkSetDown env hostNS link w with
    | (.error err, w) => (.error err, w)
    | (.ok _, w) =>
      match LinkSetName env hostNS link newName w with
      | (.error err, w) => (.error err, w)
      | (.ok _, w) => (.ok (), w)

/-- The function `setMTU(device, MTU)`. -/
def setMTU (env : Env) (device : Str) (MTU : Nat) (w : World) : Except Str Unit × World :=
  match LinkByName env hostNS device w with
  | (.error err, w) => (.error err.Error, w)
  | (.ok link, w) =>
    match LinkSetDown env hostNS link w with
    | (.error err, w) => (.error err, w)
    | (.ok _, w) =>
      match LinkSetMTU env hostNS link MTU w with
      | (.error err, w) => (.error err, w)
      | (.ok _, w) => (.ok (), w)

/-- The function `configureSriovDevice(hostNicName, containerNicName, pciAddrs)`.
Its first statement computes the two names again from the container ID; they
are the parameters the caller computed the same way.  The index it gets from
`GetVfIndexByPciAddress` (written `Index`) is the `vfIndex` it passes on. -/
def configureSriovDevice (env : Env) (hostNicName containerNicName pciAddrs : Str) (w : World) :
    Except Str Unit × World :=
  match env.GetNetDevicesFromPci pciAddrs with
  | .error err => (.error err, w)
  | .ok netdevices =>
    if netdevices.length ≠ 1 then
      (.error (str "failed to get netdevice by pci address " ++ pciAddrs), w)
    else
      let netdevice := netdevices.headD []
      match env.GetUplinkRepresentor pciAddrs with
      | .error err => (.error err, w)
      | .ok uplink =>
        match env.GetVfIndexByPciAddress pciAddrs with
        | .error err => (.error err, w)
        | .ok vfIndex =>
          match env.GetVfRepresentor uplink vfIndex with
          | .error err => (.error err, w)
          | .ok rep =>
            match renameLink env netdevice hostNicName w with
            | (.error err, w) => (.error err, w)
            | (.ok _, w) =>
              match renameLink env rep containerNicName w with
              | (.error err, w) => (.error err, w)
              | (.ok _, w) =>
                match setMTU env hostNicName env.MTU w with
                | (.error err, w) => (.error err, w)
                | (.ok _, w) =>
                  match setMTU env containerNicName env.MTU w with
                  | (.error err, w) => (.error err, w)
                  | (.ok _, w) => (.ok (), w)

/-- The part of `configureNic` after the pair of links exists: bind the host end
to the bridge, set the hardware address on both ends, apply the bandwidth
limits and configure the container end in its namespace. -/
def configureNic.bind (env : Env)
    (podName podNamespace netns mac ip gateway ingress egress hostNicName containerNicName : Str)
    (w : World) : Except Str Unit × World :=
  match AddPort env hostNicName (podName ++ str "." ++ podNamespace) w with
  | ((output, some err), w) =>
    (.error (str "add nic to ovs failed " ++ err ++ str ": " ++ output), w)
  | ((_, none), w) =>
    match env.ParseMAC mac with
    | .error err => (.error (str "failed to parse mac " ++ str " " ++ err), w)
    | .ok macAddr =>
      match configureHostNic env hostNicName macAddr w with
      | (.error err, w) => (.error err, w)
      | (.ok _, w) =>
        match SetPodBandwidth env podName podNamespace ingress egress w with
        | (.error err, w) => (.error err, w)
        | (.ok _, w) =>
          match GetNS env netns w with
          | (.error err, w) =>
            (.error (str "failed to open netns " ++ env.quote netns ++ str ": " ++ err), w)
          | (.ok podNS, w) =>
            match configureContainerNic env containerNicName ip gateway macAddr podNS w with
            | (.error err, w) => (.error err, w)
            | (.ok _, w) => (.ok (), w)

/-- The method `configureNic`.  On the veth path the deferred function deletes
the pair when the method leaves with an error, and drops the result of
that deletion. -/
def configureNic (env : Env)
    (podName podNamespace netns containerID mac ip gateway ingress egress pciAddrs : Str)
    (w : World) : Option (Except Str Unit × World) :=
  match generateNicName containerID with
  | none => none
  | some (hostNicName, containerNicName) =>
    if pciAddrs ≠ [] then
      match configureSriovDevice env hostNicName containerNicName pciAddrs w with
      | (.error err, w) =>
        some (.error (str "failed to config sr-iov device for " ++ podName ++ str " " ++ err), w)
      | (.ok _, w) =>
        some (configureNic.bind env podName podNamespace netns mac ip gateway ingress egress
          hostNicName containerNicName w)
    else
      match LinkAdd env hostNicName containerNicName env.MTU w with
      | (.error err, w) =>
        some (.error (str "failed to create veth for " ++ podName ++ str " " ++ err),
          (LinkDel env hostNS hostNicName 0 w).2)
      | (.ok veth, w) =>
        match configureNic.bind env podName podNamespace netns mac ip gateway ingress egress
            hostNicName containerNicName w with
        | (.error err, w) => some (.error err, (LinkDel env hostNS hostNicName veth w).2)
        | (.ok _, w) => some (.ok (), w)

set_option linter.unusedVariables false in
/-- The method `deleteNic`. -/
def deleteNic (env : Env) (netns podName podNamespace containerID : Str) (w : World) :
    Option (Except Str Unit × World) :=
  match generateNicName containerID with
  | none => none
  | some (hostNicName, _) =>
    match DelPort env hostNicName w with
    | ((output, some err), w) =>
      some (.error (str "failed to delete ovs port " ++ err ++ str ", " ++ output), w)
    | ((_, none), w) =>
      match ClearPodBandwidth env podName podNamespace w with
      | (.error err, w) => some (.error err, w)
      | (.ok _, w) =>
        match LinkByName env hostNS hostNicName w with
        | (.error (.LinkNotFoundError _), w) => some (.ok (), w)
        | (.error (.other err), w) =>
          some (.error (str "find host link " ++ hostNicName ++ str " failed " ++ err), w)
        | (.ok hostLink, w) =>
          match LinkDel env hostNS hostLink.Name hostLink.Index w with
          | (.error err, w) =>
            some (.error (str "delete host link " ++ env.showLink hostLink ++ str " failed "
              ++ err), w)
          | (.ok _, w) => some (.ok (), w)

/-! ## Vocabulary of the properties and concrete inputs -/

/-- A segment of `CNI_ARGS` binds `key`: it is `key`, then `=`, then at least
one byte. -/
def SegmentBinds (key seg : Str) : Prop := ∃ v, v ≠ [] ∧ seg = key ++ str "=" ++ v

/-- A checkpoint with one entry: pod `pod-1` holds device `0000:03:00.2` of the
allow-listed resource `mellanox.com/cx5_sriov_switchdev`. -/
def oneDeviceCheckpoint : checkpointFileData :=
  ⟨⟨[⟨str "pod-1", str "mellanox.com/cx5_sriov_switchdev", [str "0000:03:00.2"]⟩]⟩⟩

/-- A world with no device, port, rule or route. -/
def emptyWorld : World := ⟨[], [], [], [], [], [], List.nodup_nil⟩

/-- An environment in which no call fails for a reason of its own.  It parses
the texts of the attach scenario, 10.0.0.5/24 via 10.0.0.1, and of its IPv6
counterpart, fd00::5/64 via fd00::1, as the Go library does (an address is 16
bytes long, an IPv4 mask 4), and no others. -/
def quietEnv : Env where
  MTU := 1400
  fault := fun _ _ => none
  output := fun _ _ => []
  ParseMAC := fun s =>
    if s = str "00:00:00:a1:b2:c3" then .ok [0, 0, 0, 161, 178, 195]
    else .error (str "invalid MAC address")
  ParseAddr := fun s =>
    if s = str "10.0.0.5/24" then
      .ok ⟨[0, 0, 0, 0, 0, 0, 0, 0, 0, 0, 255, 255, 10, 0, 0, 5], [255, 255, 255, 0]⟩
    else if s = str "fd00::5/64" then
      .ok ⟨[253, 0, 0, 0, 0, 0, 0, 0, 0, 0, 0, 0, 0, 0, 0, 5],
        [255, 255, 255, 255, 255, 255, 255, 255, 0, 0, 0, 0, 0, 0, 0, 0]⟩
    else .error (str "invalid CIDR address")
  ParseIP := fun s =>
    if s = str "10.0.0.1" then some [0, 0, 0, 0, 0, 0, 0, 0, 0, 0, 255, 255, 10, 0, 0, 1]
    else if s = str "fd00::1" then some [253, 0, 0, 0, 0, 0, 0, 0, 0, 0, 0, 0, 0, 0, 0, 1]
    else none
  CheckProtocol := fun s => if s = str "10.0.0.5/24" then .ProtocolIPv4 else .ProtocolIPv6
  GetNetDevicesFromPci := fun _ => .ok []
  GetUplinkRepresentor := fun _ => .error (str "no uplink")
  GetVfIndexByPciAddress := fun _ => .error (str "no vf")
  GetVfRepresentor := fun _ _ => .error (str "no representor")
  newHardwareAddr := fun n => [2, 0, 0, 0, 0, UInt8.ofNat n]
  showLink := fun l => l.Name
  quote := fun s => s

/-- An environment in which the bridge tool is down: `ovs-vsctl` exits with
status 1 and says why; no other call fails. -/
def bridgeDownEnv : Env :=
  { quietEnv with
    fault := fun _ op =>
      match op with
      | .AddPort _ _ => some (str "exit status 1")
      | .DelPort _ => some (str "exit status 1")
      | _ => none
    output := fun _ _ => str "ovs-vsctl: database connection failed" }

/-- An environment in which the bridge tool is down and the kernel also refuses
to delete a device. -/
def noRollbackEnv : Env :=
  { bridgeDownEnv with
    fault := fun _ op =>
      match op with
      | .AddPort _ _ => some (str "exit status 1")
      | .LinkDel _ => some (str "operation not permitted")
      | _ => none }

/-- The destination of the default route of an address family. -/
def defaultNet : Protocol → IPNet
  | .ProtocolIPv4 => defaultNet4
  | .ProtocolIPv6 => defaultNet6

/-- The host after `LinkAdd` of the pair `abcdef012345_h`/`abcdef012345_c` on
the empty world. -/
def vethWorld : World :=
  (LinkAdd quietEnv (str "abcdef012345_h") (str "abcdef012345_c") 1400 emptyWorld).2

/-- The host after an attach that failed on the hardware address `zz`: the pair
is deleted again, the port `abcdef012345_h` is still on the bridge. -/
def stalePortWorld : World :=
  ((configureNic quietEnv (str "pod1") (str "ns1") (str "/var/run/netns/x")
    (str "abcdef0123456789") (str "zz") (str "10.0.0.5/24") (str "10.0.0.1")
    [] [] [] emptyWorld).map Prod.snd).getD emptyWorld

/-- The host after the successful attach of the scenario: sandbox
`abcdef0123456789`, pod `pod1.ns1`, address 10.0.0.5/24 via 10.0.0.1. -/
def attachedWorld : World :=
  ((configureNic quietEnv (str "pod1") (str "ns1") (str "/var/run/netns/x")
    (str "abcdef0123456789") (str "00:00:00:a1:b2:c3") (str "10.0.0.5/24") (str "10.0.0.1")
    [] [] [] emptyWorld).map Prod.snd).getD emptyWorld


/-! ## Link names -/

theorem slice_zero (s : Str) (n : Nat) (h : n ≤ s.length) : slice s 0 n = some (s.take n) := by
  simp [slice, h]

theorem slice_short (s : Str) (n : Nat) (h : s.length < n) : slice s 0 n = none := by
  simp [slice]; omega

theorem generateNicName_some (id h c : Str) (hg : generateNicName id = some (h, c)) :
    12 ≤ id.length ∧ h = id.take 12 ++ str "_h" ∧ c = id.take 12 ++ str "_c" := by
  by_cases hl : 12 ≤ id.length
  · simp [generateNicName, slice_zero id 12 hl] at hg
    exact ⟨hl, hg.1.symm, hg.2.symm⟩
  · simp [generateNicName, slice_short id 12 (by omega)] at hg

theorem generateNicName_long (id : Str) (h : 12 ≤ id.length) :
    generateNicName id = some (id.take 12 ++ str "_h", id.take 12 ++ str "_c") := by
  simp [generateNicName, slice_zero id 12 h]

theorem suffix_h_ne_c (p q : Str) (hp : p.length = 12) (hq : q.length = 12) :
    p ++ str "_h" ≠ q ++ str "_c" := by
  intro h
  have := (List.append_inj h (by rw [hp, hq])).2
  revert this
  decide

/-- C6, counterexample: on the three-byte sandbox ID `abc` the slice
`containerID[0:12]` is out of range, so no pair of names is returned. -/
theorem generateNicName_short_id :
    generateNicName (str "abc") = none ∧
      generateNicName (str "abc") ≠
        some ((str "abc").take 12 ++ str "_h", (str "abc").take 12 ++ str "_c") := by
  decide

/-- C6, amended: for every sandbox ID of at least 12 bytes `generateNicName`
(a function, hence the same result at every call) returns the first 12 bytes
followed by `_h` as the host link name and the same 12 bytes followed by `_c`
as the container link name. -/
theorem generateNicName_of_length (id : Str) (h : 12 ≤ id.length) :
    generateNicName id = some (id.take 12 ++ str "_h", id.take 12 ++ str "_c") :=
  generateNicName_long id h

theorem generateNicName_of_length_witness :
    12 ≤ (str "abcdef0123456789abcdef").length ∧
      generateNicName (str "abcdef0123456789abcdef") =
        some (str "abcdef012345_h", str "abcdef012345_c") :=
  ⟨by decide, (generateNicName_of_length (str "abcdef0123456789abcdef") (by decide)).trans
    (by decide)⟩

/-- C7: two sandbox IDs of at least 12 bytes whose 12-byte prefixes differ get
four pairwise distinct link names, and the host and container names made from
one sandbox ID differ. -/
theorem generateNicName_unique :
    (∀ a b : Str, 12 ≤ a.length → 12 ≤ b.length → a.take 12 ≠ b.take 12 →
      ∃ ah ac bh bc, generateNicName a = some (ah, ac) ∧ generateNicName b = some (bh, bc) ∧
        List.Pairwise (fun x y => x ≠ y) [ah, ac, bh, bc]) ∧
    (∀ id h c : Str, generateNicName id = some (h, c) → h ≠ c) := by
  constructor
  · intro a b ha hb hne
    refine ⟨_, _, _, _, generateNicName_long a ha, generateNicName_long b hb, ?_⟩
    have la : (a.take 12).length = 12 := by simp [ha]
    have lb : (b.take 12).length = 12 := by simp [hb]
    simp only [List.pairwise_cons, List.mem_cons, List.mem_singleton, List.not_mem_nil,
      forall_eq_or_imp, forall_eq, false_implies, implies_true, List.Pairwise.nil, and_true]
    refine ⟨⟨suffix_h_ne_c _ _ la la, ?_, suffix_h_ne_c _ _ la lb⟩,
      ⟨fun h => suffix_h_ne_c _ _ lb la h.symm, ?_⟩, suffix_h_ne_c _ _ lb lb⟩
    · intro h; exact hne (List.append_cancel_right h)
    · intro h; exact hne (List.append_cancel_right h)
  · intro id h c hg
    obtain ⟨hl, rfl, rfl⟩ := generateNicName_some id h c hg
    exact suffix_h_ne_c _ _ (by simp [hl]) (by simp [hl])

theorem generateNicName_unique_witness :
    ∃ ah ac bh bc, generateNicName (str "abcdef012345aaaa") = some (ah, ac) ∧
      generateNicName (str "abcdef012346aaaa") = some (bh, bc) ∧
      List.Pairwise (fun x y => x ≠ y) [ah, ac, bh, bc] :=
  generateNicName_unique.1 (str "abcdef012345aaaa") (str "abcdef012346aaaa")
    (by decide) (by decide) (by decide)

/-! ## CNI arguments -/

theorem Split_ne_nil (s : Str) (sep : UInt8) : Split s sep ≠ [] := by
  induction s with
  | nil => simp [Split]
  | cons c cs ih =>
    unfold Split
    split
    · simp
    · split <;> simp

/-- Joining the segments with the separator gives the string back. -/
theorem Split_intercalate (s : Str) (sep : UInt8) :
    List.intercalate [sep] (Split s sep) = s := by
  induction s with
  | nil => simp [Split, List.intercalate]
  | cons c cs ih =>
    unfold Split
    split
    · rename_i h
      cases hs : Split cs sep with
      | nil => exact absurd hs (Split_ne_nil cs sep)
      | cons seg rest =>
        rw [hs] at ih
        simp [List.intercalate, List.intersperse] at ih ⊢
        exact ⟨h.symm, ih⟩
    · cases hs : Split cs sep with
      | nil => exact absurd hs (Split_ne_nil cs sep)
      | cons seg rest =>
        rw [hs] at ih
        cases rest with
        | nil => simp [List.intercalate, List.intersperse] at ih ⊢; exact ih
        | cons r rs => simp [List.intercalate, List.intersperse] at ih ⊢; exact ih

/-- No segment contains the separator. -/
theorem Split_no_sep (s : Str) (sep : UInt8) : ∀ seg ∈ Split s sep, sep ∉ seg := by
  induction s with
  | nil => simp [Split]
  | cons c cs ih =>
    unfold Split
    split
    · intro seg hseg
      rcases List.mem_cons.1 hseg with h | h
      · simp [h]
      · exact ih seg h
    · rename_i hne
      cases hs : Split cs sep with
      | nil => exact absurd hs (Split_ne_nil cs sep)
      | cons seg0 rest =>
        rw [hs] at ih
        intro seg hseg
        rcases List.mem_cons.1 hseg with h | h
        · subst h
          have := ih seg0 (List.mem_cons_self _ _)
          simp only [List.mem_cons, not_or]
          exact ⟨fun h => hne h.symm, this⟩
        · exact ih seg (List.mem_cons_of_mem _ h)

theorem HasPrefix_iff (s p : Str) : HasPrefix s p = true ↔ ∃ v, s = p ++ v := by
  simp only [HasPrefix, List.isPrefixOf_iff_prefix]
  constructor
  · rintro ⟨v, rfl⟩; exact ⟨v, rfl⟩
  · rintro ⟨v, rfl⟩; exact ⟨v, rfl⟩

theorem TrimPrefix_append (p v : Str) : TrimPrefix (p ++ v) p = v := by
  have : HasPrefix (p ++ v) p = true := (HasPrefix_iff _ _).2 ⟨v, rfl⟩
  simp [TrimPrefix, this]

theorem loop_none (key : Str) (segs : List Str) :
    parseValueFromArgs.loop key segs = none ↔ ∀ seg ∈ segs, ¬ SegmentBinds key seg := by
  induction segs with
  | nil => simp [parseValueFromArgs.loop]
  | cons arg rest ih =>
    unfold parseValueFromArgs.loop
    by_cases hp : HasPrefix arg (key ++ str "=") = true
    · obtain ⟨v, rfl⟩ := (HasPrefix_iff _ _).1 hp
      simp only [hp, if_true, TrimPrefix_append]
      by_cases hv : v = []
      · subst hv
        simp only [List.length_nil, gt_iff_lt, lt_self_iff_false, if_false, ih,
          List.mem_cons, forall_eq_or_imp]
        constructor
        · intro h
          refine ⟨?_, h⟩
          rintro ⟨v, hv, he⟩
          exact hv (@List.append_cancel_left _ (key ++ str "=") [] v he).symm
        · exact fun h => h.2
      · have hl : v.length > 0 := List.length_pos.2 hv
        simp only [hl, if_true, List.mem_cons, forall_eq_or_imp]
        constructor
        · intro h; cases h
        · intro h; exact absurd ⟨v, hv, rfl⟩ h.1
    · have hp2 : HasPrefix arg (key ++ str "=") = false := by simpa using hp
      simp only [hp2, Bool.false_eq_true, if_false, ih, List.mem_cons, forall_eq_or_imp]
      constructor
      · intro h
        refine ⟨?_, h⟩
        rintro ⟨v, _, he⟩
        exact hp ((HasPrefix_iff _ _).2 ⟨v, he⟩)
      · exact fun h => h.2

theorem loop_some (key : Str) (segs : List Str) (v : Str)
    (h : parseValueFromArgs.loop key segs = some v) :
    v ≠ [] ∧ ∃ pre post, segs = pre ++ (key ++ str "=" ++ v) :: post ∧
      ∀ s ∈ pre, ¬ SegmentBinds key s := by
  induction segs with
  | nil => simp [parseValueFromArgs.loop] at h
  | cons arg rest ih =>
    have skip : parseValueFromArgs.loop key rest = some v → ¬ SegmentBinds key arg →
        v ≠ [] ∧ ∃ pre post, arg :: rest = pre ++ (key ++ str "=" ++ v) :: post ∧
          ∀ s ∈ pre, ¬ SegmentBinds key s := by
      intro hr hn
      obtain ⟨hv, pre, post, he, hpre⟩ := ih hr
      refine ⟨hv, arg :: pre, post, by simp [he], ?_⟩
      intro s hs
      rcases List.mem_cons.1 hs with rfl | hs
      · exact hn
      · exact hpre s hs
    unfold parseValueFromArgs.loop at h
    by_cases hp : HasPrefix arg (key ++ str "=") = true
    · obtain ⟨u, rfl⟩ := (HasPrefix_iff _ _).1 hp
      simp only [hp, if_true, TrimPrefix_append] at h
      by_cases hu : u = []
      · subst hu
        simp only [List.length_nil, gt_iff_lt, lt_self_iff_false, if_false] at h
        refine skip h ?_
        rintro ⟨v, hv, he⟩
        exact hv (@List.append_cancel_left _ (key ++ str "=") [] v he).symm
      · have hl : u.length > 0 := List.length_pos.2 hu
        simp only [hl, if_true, Option.some.injEq] at h
        subst h
        exact ⟨hu, [], rest, by simp, by simp⟩
    · have hp2 : HasPrefix arg (key ++ str "=") = false := by simpa using hp
      simp only [hp2, Bool.false_eq_true, if_false] at h
      refine skip h ?_
      rintro ⟨v, _, he⟩
      exact hp ((HasPrefix_iff _ _).2 ⟨v, he⟩)

/-- C10: `parseValueFromArgs key argString` is an error exactly when `argString`
is empty or no `;`-separated segment is `key=` followed by at least one byte;
otherwise it returns what follows `key=` in the first such segment. -/
theorem parseValueFromArgs_spec (key argString : Str) :
    ((∃ e, parseValueFromArgs key argString = .error e) ↔
      (argString = [] ∨ ∀ seg ∈ Split argString 59, ¬ SegmentBinds key seg)) ∧
    (¬ (argString = [] ∨ ∀ seg ∈ Split argString 59, ¬ SegmentBinds key seg) →
      ∃ pre post v, Split argString 59 = pre ++ (key ++ str "=" ++ v) :: post ∧ v ≠ [] ∧
        (∀ s ∈ pre, ¬ SegmentBinds key s) ∧ parseValueFromArgs key argString = .ok v) := by
  by_cases he : argString = []
  · simp [parseValueFromArgs, he]
  · cases hl : parseValueFromArgs.loop key (Split argString 59) with
    | none =>
      have hn := (loop_none key _).1 hl
      simp only [parseValueFromArgs, he, if_false, hl, false_or]
      exact ⟨⟨fun _ => hn, fun _ => ⟨_, rfl⟩⟩, fun h => absurd hn h⟩
    | some v =>
      obtain ⟨hv, pre, post, hs, hpre⟩ := loop_some key _ v hl
      have hbind : ¬ ∀ seg ∈ Split argString 59, ¬ SegmentBinds key seg := by
        intro h
        rw [(loop_none key _).2 h] at hl
        cases hl
      simp only [parseValueFromArgs, he, if_false, hl, false_or]
      refine ⟨⟨?_, fun h => absurd h hbind⟩, fun _ => ⟨pre, post, v, hs, hv, hpre, rfl⟩⟩
      rintro ⟨e, h⟩
      cases h

theorem parseValueFromArgs_spec_witness :
    parseValueFromArgs (str "K8S_POD_NAME")
        (str "IgnoreUnknown=1;K8S_POD_NAME=;K8S_POD_NAME=web;K8S_POD_NAME=db") = .ok (str "web") ∧
    ((∃ e, parseValueFromArgs (str "K8S_POD_NAME") (str "K8S_POD_NAME=;X=1") = .error e) ↔
      (str "K8S_POD_NAME=;X=1" = [] ∨
        ∀ seg ∈ Split (str "K8S_POD_NAME=;X=1") 59,
          ¬ SegmentBinds (str "K8S_POD_NAME") seg)) :=
  ⟨by decide, (parseValueFromArgs_spec (str "K8S_POD_NAME") (str "K8S_POD_NAME=;X=1")).1⟩

/-! ## Device Locator -/

theorem names_eq (pod : PodDevicesEntry) (acc names : List Str) :
    getDeviceIDs.names pod acc names = acc ++ names.filter (fun d => d = pod.ResourceName) := by
  induction names generalizing acc with
  | nil => simp [getDeviceIDs.names]
  | cons d rest ih =>
    unfold getDeviceIDs.names
    by_cases h : d = pod.ResourceName
    · simp [h, ih]
    · simp [h, ih]

theorem entries_eq (podID : Str) (acc : List Str) (es : List PodDevicesEntry) :
    getDeviceIDs.entries podID acc es =
      acc ++ ((es.filter (fun e => e.PodUID = podID)).map
        (fun e => resourceNames.filter (fun d => d = e.ResourceName))).flatten := by
  induction es generalizing acc with
  | nil => simp [getDeviceIDs.entries]
  | cons e rest ih =>
    unfold getDeviceIDs.entries
    by_cases h : e.PodUID = podID
    · simp [h, ih, names_eq]
    · simp [h, ih]

/-- What `getDeviceIDs` returns on a readable, well-formed checkpoint: for each
entry of the sandbox, in checkpoint order, the allow-list names equal to the
entry's resource name; never an error. -/
theorem getDeviceIDs_ok (readFile : Str → Except Str Str)
    (unmarshal : Str → Except Str checkpointFileData) (podID raw : Str)
    (cpd : checkpointFileData) (hr : readFile checkPointfile = .ok raw)
    (hu : unmarshal raw = .ok cpd) :
    getDeviceIDs readFile unmarshal podID =
      (((cpd.Data.PodDeviceEntries.filter (fun e => e.PodUID = podID)).map
        (fun e => resourceNames.filter (fun d => d = e.ResourceName))).flatten, none) := by
  simp [getDeviceIDs, hr, hu, entries_eq]

/-- With no entry for the sandbox the result is empty and not an error. -/
theorem getDeviceIDs_no_entry (readFile : Str → Except Str Str)
    (unmarshal : Str → Except Str checkpointFileData) (podID raw : Str)
    (cpd : checkpointFileData) (hr : readFile checkPointfile = .ok raw)
    (hu : unmarshal raw = .ok cpd) (hn : ∀ e ∈ cpd.Data.PodDeviceEntries, e.PodUID ≠ podID) :
    getDeviceIDs readFile unmarshal podID = ([], none) := by
  rw [getDeviceIDs_ok readFile unmarshal podID raw cpd hr hu]
  have : cpd.Data.PodDeviceEntries.filter (fun e => e.PodUID = podID) = [] := by
    simp only [List.filter_eq_nil_iff, decide_eq_true_eq]
    exact hn
  simp [this]

/-- C3, the code at the failing input: the checkpoint holds one entry, pod `pod-1`
with device `0000:03:00.2` of an allow-listed resource; `getDeviceIDs` returns
the resource name, not the device ID. -/
theorem getDeviceIDs_returns_resource_name :
    getDeviceIDs (fun _ => .ok []) (fun _ => .ok oneDeviceCheckpoint) (str "pod-1") =
        ([str "mellanox.com/cx5_sriov_switchdev"], none) ∧
      (getDeviceIDs (fun _ => .ok []) (fun _ => .ok oneDeviceCheckpoint) (str "pod-1")).1 ≠
        [str "0000:03:00.2"] := by
  decide

/-! ## Calls on the host -/

@[simp] theorem logged_links (w : World) (op : Op) : (w.logged op).links = w.links := rfl
@[simp] theorem logged_ports (w : World) (op : Op) : (w.logged op).ports = w.ports := rfl
@[simp] theorem logged_qos (w : World) (op : Op) : (w.logged op).qos = w.qos := rfl
@[simp] theorem logged_routes (w : World) (op : Op) : (w.logged op).routes = w.routes := rfl
@[simp] theorem logged_log (w : World) (op : Op) : (w.logged op).log = w.log ++ [op] := rfl
@[simp] theorem logged_hasLink (w : World) (op : Op) (cur : NetNS) (i : Nat) :
    (w.logged op).hasLink cur i = w.hasLink cur i := rfl

@[simp] theorem modifyLink_ports (w : World) (cur : NetNS) (i : Nat) (f : Link → Link)
    (hf : ∀ l, (f l).Index = l.Index) : (w.modifyLink cur i f hf).ports = w.ports := rfl
@[simp] theorem modifyLink_routes (w : World) (cur : NetNS) (i : Nat) (f : Link → Link)
    (hf : ∀ l, (f l).Index = l.Index) : (w.modifyLink cur i f hf).routes = w.routes := rfl
@[simp] theorem modifyLink_log (w : World) (cur : NetNS) (i : Nat) (f : Link → Link)
    (hf : ∀ l, (f l).Index = l.Index) : (w.modifyLink cur i f hf).log = w.log := rfl
@[simp] theorem modifyLink_links (w : World) (cur : NetNS) (i : Nat) (f : Link → Link)
    (hf : ∀ l, (f l).Index = l.Index) :
    (w.modifyLink cur i f hf).links =
      w.links.map (fun l => if l.Index = i ∧ l.netns = cur then f l else l) := rfl

theorem invoke_run {α : Type} (env : Env) (op : Op) (w : World)
    (run : World → Except Str α × World) (h : env.fault w.log op = none) :
    invoke env op w run = run (w.logged op) := by
  simp [invoke, h]

theorem invoke_ok {α : Type} {env : Env} {op : Op} {w w' : World}
    {run : World → Except Str α × World} {a : α} (h : invoke env op w run = (.ok a, w')) :
    env.fault w.log op = none ∧ run (w.logged op) = (.ok a, w') := by
  unfold invoke at h
  split at h
  · cases h
  · rename_i hf; exact ⟨hf, h⟩

theorem linkSet_ok {env : Env} {op : Op} {cur : NetNS} {i : Nat} {f : Link → Link}
    {hf : ∀ l, (f l).Index = l.Index} {w w' : World} {u : Unit}
    (h : linkSet env op cur i f hf w = (.ok u, w')) :
    w.hasLink cur i = true ∧ w' = (w.logged op).modifyLink cur i f hf := by
  obtain ⟨_, h⟩ := invoke_ok h
  by_cases hl : w.hasLink cur i = true
  · simp [hl] at h; exact ⟨hl, h.symm⟩
  · simp [hl] at h

theorem hasLink_iff (w : World) (cur : NetNS) (i : Nat) :
    w.hasLink cur i = true ↔ ∃ l ∈ w.links, l.Index = i ∧ l.netns = cur := by
  simp [World.hasLink]

theorem LinkByName_ok {env : Env} {cur : NetNS} {name : Str} {w w' : World} {l : Link}
    (h : LinkByName env cur name w = (.ok l, w')) :
    w' = w.logged (.LinkByName cur name) ∧ l ∈ w.links ∧ l.Name = name ∧ l.netns = cur ∧
      w.links.find? (fun l => l.Name = name ∧ l.netns = cur) = some l := by
  unfold LinkByName at h
  split at h
  · cases h
  · split at h
    · rename_i l0 hfind
      simp only [Prod.mk.injEq, Except.ok.injEq] at h
      obtain ⟨rfl, rfl⟩ := h
      have hp := List.find?_some hfind
      simp only [decide_eq_true_eq] at hp
      exact ⟨rfl, List.mem_of_find?_eq_some hfind, hp.1, hp.2, hfind⟩
    · cases h

theorem LinkByName_log (env : Env) (cur : NetNS) (name : Str) (w : World) :
    (LinkByName env cur name w).2 = w.logged (.LinkByName cur name) := by
  unfold LinkByName
  split
  · rfl
  · split <;> rfl

theorem LinkAdd_ok {env : Env} {name peerName : Str} {mtu : Nat} {w w' : World} {n : Nat}
    (h : LinkAdd env name peerName mtu w = (.ok n, w')) :
    n = w.freshIndex ∧
    (∀ l ∈ w.links, l.netns = hostNS → l.Name ≠ name ∧ l.Name ≠ peerName) ∧
    w'.ports = w.ports ∧ w'.log = w.log ++ [.LinkAdd name peerName mtu] ∧
    w'.links = w.links ++
      [⟨n, name, hostNS, env.newHardwareAddr n, false, mtu, [], some (n + 1)⟩,
       ⟨n + 1, peerName, hostNS, env.newHardwareAddr (n + 1), false, mtu, [], some n⟩] := by
  obtain ⟨_, h⟩ := invoke_ok h
  split at h
  · cases h
  · rename_i hex
    simp only [Prod.mk.injEq, Except.ok.injEq] at h
    obtain ⟨rfl, rfl⟩ := h
    refine ⟨rfl, ?_, rfl, rfl, rfl⟩
    intro l hl hns
    simp only [logged_links, List.any_eq_true, decide_eq_true_eq, not_exists, not_and] at hex
    have := hex l hl
    constructor
    · intro hn; exact this (Or.inl hn) hns
    · intro hn; exact this (Or.inr hn) hns

theorem AddPort_fail {env : Env} {port ifaceID : Str} {w w' : World} {output err : Str}
    (h : AddPort env port ifaceID w = ((output, some err), w')) :
    w' = w.logged (.AddPort port ifaceID) ∧ output = env.output w.log (.AddPort port ifaceID) ∧
      env.fault w.log (.AddPort port ifaceID) = some err := by
  unfold AddPort at h
  split at h
  · rename_i e hf
    simp only [Prod.mk.injEq, Option.some.injEq] at h
    obtain ⟨⟨rfl, rfl⟩, rfl⟩ := h
    exact ⟨rfl, rfl, hf⟩
  · simp at h

/-! ## Hardware path -/

/-- C4: when the lookup of the devices behind a PCI address gives no device or
more than one, `configureSriovDevice` returns an error and leaves the host
exactly as it was: no device is renamed, no MTU is set, no call is made. -/
theorem configureSriovDevice_ambiguous (env : Env) (hostNicName containerNicName pciAddrs : Str)
    (w : World) (netdevices : List Str)
    (hlookup : env.GetNetDevicesFromPci pciAddrs = .ok netdevices)
    (hcount : netdevices.length = 0 ∨ 1 < netdevices.length) :
    configureSriovDevice env hostNicName containerNicName pciAddrs w =
      (.error (str "failed to get netdevice by pci address " ++ pciAddrs), w) := by
  have hne : netdevices.length ≠ 1 := by omega
  simp [configureSriovDevice, hlookup, hne]

theorem configureSriovDevice_ambiguous_witness :
    configureSriovDevice quietEnv (str "abcdef012345_h") (str "abcdef012345_c")
        (str "0000:03:00.2") emptyWorld =
      (.error (str "failed to get netdevice by pci address " ++ str "0000:03:00.2"),
        emptyWorld) :=
  configureSriovDevice_ambiguous quietEnv _ _ (str "0000:03:00.2") emptyWorld []
    rfl (Or.inl rfl)

/-! ## Detach -/

theorem DelPort_eq (env : Env) (port : Str) (w : World) :
    DelPort env port w =
      match env.fault w.log (.DelPort port) with
      | some err => ((env.output w.log (.DelPort port), some err), w.logged (.DelPort port))
      | none =>
        ((env.output w.log (.DelPort port), none),
          { w.logged (.DelPort port) with
            ports := w.ports.filter (fun p => p.name ≠ port) }) := by
  unfold DelPort
  split <;> simp_all

theorem ClearPodBandwidth_log (env : Env) (podName podNamespace : Str) (w : World) :
    (ClearPodBandwidth env podName podNamespace w).2.log =
      w.log ++ [.ClearPodBandwidth podName podNamespace] := by
  unfold ClearPodBandwidth invoke
  split <;> rfl

theorem LinkDel_log (env : Env) (cur : NetNS) (name : Str) (index : Nat) (w : World) :
    ∃ i, (LinkDel env cur name index w).2.log = w.log ++ [.LinkDel i] := by
  refine ⟨ensureIndex w cur name index, ?_⟩
  unfold LinkDel invoke
  simp only
  split
  · rfl
  · split <;> rfl

/-- The calls `deleteNic` makes once the port is gone from the bridge: the
bandwidth is cleared first, whatever happens to the link afterwards. -/
theorem deleteNic_after_DelPort (env : Env) (podName podNamespace hostNicName : Str)
    (w : World) :
    ∃ r w' rest,
      (match ClearPodBandwidth env podName podNamespace w with
        | (.error err, w) => some (Except.error err, w)
        | (.ok _, w) =>
          match LinkByName env hostNS hostNicName w with
          | (.error (.LinkNotFoundError _), w) => some (.ok (), w)
          | (.error (.other err), w) =>
            some (.error (str "find host link " ++ hostNicName ++ str " failed " ++ err), w)
          | (.ok hostLink, w) =>
            match LinkDel env hostNS hostLink.Name hostLink.Index w with
            | (.error err, w) =>
              some (.error (str "delete host link " ++ env.showLink hostLink ++ str " failed "
                ++ err), w)
            | (.ok _, w) => some (.ok (), w)) = some (r, w') ∧
      w'.log = w.log ++ [.ClearPodBandwidth podName podNamespace] ++ rest := by
  have hc := ClearPodBandwidth_log env podName podNamespace w
  rcases hcb : ClearPodBandwidth env podName podNamespace w with ⟨rc, wc⟩
  rw [hcb] at hc
  simp only at hc
  cases rc with
  | error err => exact ⟨_, _, [], rfl, by simp [hc]⟩
  | ok u =>
    dsimp only
    have hl := LinkByName_log env hostNS hostNicName wc
    rcases hlb : LinkByName env hostNS hostNicName wc with ⟨rl, wl⟩
    rw [hlb] at hl
    simp only at hl
    cases rl with
    | error e =>
      cases e with
      | LinkNotFoundError m =>
        exact ⟨_, _, [.LinkByName hostNS hostNicName], rfl, by simp [hl, hc]⟩
      | other m => exact ⟨_, _, [.LinkByName hostNS hostNicName], rfl, by simp [hl, hc]⟩
    | ok hostLink =>
      dsimp only
      obtain ⟨i, hd⟩ := LinkDel_log env hostNS hostLink.Name hostLink.Index wl
      rcases hld : LinkDel env hostNS hostLink.Name hostLink.Index wl with ⟨rd, wd⟩
      rw [hld] at hd
      simp only at hd
      cases rd with
      | error e =>
        exact ⟨_, _, [.LinkByName hostNS hostNicName, .LinkDel i], rfl, by simp [hd, hl, hc]⟩
      | ok u =>
        exact ⟨_, _, [.LinkByName hostNS hostNicName, .LinkDel i], rfl, by simp [hd, hl, hc]⟩

/-- C8, counterexample: with the bridge tool down, `deleteNic` returns the error
of the port removal and has made one call only; `ClearPodBandwidth` is not
among the calls. -/
theorem deleteNic_skips_ClearPodBandwidth :
    deleteNic bridgeDownEnv [] (str "pod1") (str "ns1") (str "abcdef0123456789") emptyWorld =
        some (.error (str
          "failed to delete ovs port exit status 1, ovs-vsctl: database connection failed"),
          emptyWorld.logged (.DelPort (str "abcdef012345_h"))) ∧
      (emptyWorld.logged (.DelPort (str "abcdef012345_h"))).log =
        [.DelPort (str "abcdef012345_h")] ∧
      Op.ClearPodBandwidth (str "pod1") (str "ns1") ∉
        (emptyWorld.logged (.DelPort (str "abcdef012345_h"))).log := by
  decide

/-- C8, amended: for a sandbox ID of at least 12 bytes, `deleteNic` first removes
the bridge port.  When that removal succeeds its next call is
`ClearPodBandwidth podName podNamespace`, whether or not the lookup and the
deletion of the host link then succeed; when the removal fails `deleteNic`
returns that error and makes no further call. -/
theorem deleteNic_ClearPodBandwidth (env : Env) (netns podName podNamespace containerID : Str)
    (w : World) (hlen : 12 ≤ containerID.length) :
    ∃ r w' rest, deleteNic env netns podName podNamespace containerID w = some (r, w') ∧
      w'.log = w.log ++ [.DelPort (containerID.take 12 ++ str "_h")] ++ rest ∧
      (env.fault w.log (.DelPort (containerID.take 12 ++ str "_h")) = none →
        ∃ more, rest = .ClearPodBandwidth podName podNamespace :: more) ∧
      (∀ err, env.fault w.log (.DelPort (containerID.take 12 ++ str "_h")) = some err →
        rest = [] ∧ ∃ msg, r = .error msg) := by
  unfold deleteNic
  rw [generateNicName_long containerID hlen]
  simp only [DelPort_eq]
  cases hf : env.fault w.log (.DelPort (containerID.take 12 ++ str "_h")) with
  | some err =>
    refine ⟨_, _, [], rfl, by simp, by simp, ?_⟩
    intro e _
    exact ⟨rfl, _, rfl⟩
  | none =>
    simp only
    obtain ⟨r, w', rest, he, hlog⟩ := deleteNic_after_DelPort env podName podNamespace
      (containerID.take 12 ++ str "_h")
      { w.logged (.DelPort (containerID.take 12 ++ str "_h")) with
        ports := w.ports.filter (fun p => p.name ≠ containerID.take 12 ++ str "_h") }
    refine ⟨r, w', .ClearPodBandwidth podName podNamespace :: rest, he, ?_, ?_, ?_⟩
    · rw [hlog]; simp
    · intro _; exact ⟨rest, rfl⟩
    · intro e he; cases he

theorem deleteNic_ClearPodBandwidth_witness :
    ∃ r w' rest, deleteNic quietEnv [] (str "pod1") (str "ns1") (str "abcdef0123456789")
        emptyWorld = some (r, w') ∧
      w'.log = emptyWorld.log ++ [.DelPort ((str "abcdef0123456789").take 12 ++ str "_h")] ++
        rest ∧
      (quietEnv.fault emptyWorld.log (.DelPort ((str "abcdef0123456789").take 12 ++ str "_h")) =
          none →
        ∃ more, rest = .ClearPodBandwidth (str "pod1") (str "ns1") :: more) ∧
      (∀ err,
        quietEnv.fault emptyWorld.log (.DelPort ((str "abcdef0123456789").take 12 ++ str "_h")) =
          some err →
        rest = [] ∧ ∃ msg, r = .error msg) :=
  deleteNic_ClearPodBandwidth quietEnv [] (str "pod1") (str "ns1") (str "abcdef0123456789")
    emptyWorld (by decide)

theorem ensureIndex_found (w : World) (cur : NetNS) (name : Str) (l : Link)
    (hfind : w.links.find? (fun l => l.Name = name ∧ l.netns = cur) = some l) :
    ensureIndex w cur l.Name l.Index = l.Index := by
  have hp := List.find?_some hfind
  simp only [decide_eq_true_eq] at hp
  unfold ensureIndex
  split
  · rename_i h0
    rw [hp.1, hfind]
  · rfl

theorem LinkDel_found (env : Env) (w : World) (name : Str) (l : Link)
    (hfind : w.links.find? (fun l => l.Name = name ∧ l.netns = hostNS) = some l)
    (hf : env.fault w.log (.LinkDel l.Index) = none) :
    ∃ w', LinkDel env hostNS l.Name l.Index w = (.ok (), w') := by
  have hp := List.find?_some hfind
  simp only [decide_eq_true_eq] at hp
  have hmem := List.mem_of_find?_eq_some hfind
  have hhas : (w.logged (.LinkDel l.Index)).hasLink hostNS l.Index = true := by
    rw [logged_hasLink, hasLink_iff]
    exact ⟨l, hmem, rfl, hp.2⟩
  unfold LinkDel
  simp only [ensureIndex_found w hostNS name l hfind]
  rw [invoke_run env _ w _ hf]
  simp only [hhas, if_true]
  exact ⟨_, rfl⟩

theorem ClearPodBandwidth_run (env : Env) (podName podNamespace : Str) (w : World)
    (hf : env.fault w.log (.ClearPodBandwidth podName podNamespace) = none) :
    ∃ w', ClearPodBandwidth env podName podNamespace w = (.ok (), w') ∧ w'.links = w.links := by
  unfold ClearPodBandwidth
  rw [invoke_run env _ w _ hf]
  exact ⟨_, rfl, rfl⟩

/-- Detach with no failing call: `deleteNic` succeeds from any host state when
the port removal, the clearing of the bandwidth and the lookup of the host link
do not fail, and the link is absent or its deletion does not fail. -/
theorem deleteNic_succeeds (env : Env) (netns podName podNamespace containerID : Str)
    (w : World) (hlen : 12 ≤ containerID.length)
    (hport : ∀ log, env.fault log (.DelPort (containerID.take 12 ++ str "_h")) = none)
    (hclear : ∀ log, env.fault log (.ClearPodBandwidth podName podNamespace) = none)
    (hfind :
      ∀ log, env.fault log (.LinkByName hostNS (containerID.take 12 ++ str "_h")) = none)
    (hlink :
      (∀ l ∈ w.links, ¬ (l.Name = containerID.take 12 ++ str "_h" ∧ l.netns = hostNS)) ∨
        ∀ log i, env.fault log (.LinkDel i) = none) :
    ∃ w', deleteNic env netns podName podNamespace containerID w = some (.ok (), w') := by
  unfold deleteNic
  rw [generateNicName_long containerID hlen]
  simp only [DelPort_eq, hport]
  obtain ⟨wc, hc, hcl⟩ := ClearPodBandwidth_run env podName podNamespace
    { w.logged (.DelPort (containerID.take 12 ++ str "_h")) with
      ports := w.ports.filter (fun p => p.name ≠ containerID.take 12 ++ str "_h") }
    (hclear _)
  rw [hc]
  dsimp only
  have hwl : wc.links = w.links := hcl
  unfold LinkByName
  rw [hfind]
  dsimp only
  cases hf : wc.links.find? (fun l => l.Name = containerID.take 12 ++ str "_h" ∧ l.netns = hostNS)
      with
  | none => exact ⟨_, rfl⟩
  | some l =>
    dsimp only
    rcases hlink with habs | hdel
    · have hp := List.find?_some hf
      simp only [decide_eq_true_eq] at hp
      have hmem := List.mem_of_find?_eq_some hf
      rw [hwl] at hmem
      exact absurd hp (habs l hmem)
    · obtain ⟨wd, hd⟩ := LinkDel_found env
        (wc.logged (.LinkByName hostNS (containerID.take 12 ++ str "_h")))
        (containerID.take 12 ++ str "_h") l (by simpa using hf) (hdel _ _)
      rw [hd]
      exact ⟨_, rfl⟩

/-- C1, counterexample: on the three-byte sandbox ID `abc` `deleteNic` panics, and
with the bridge tool down it returns an error on a host where the sandbox was
never attached. -/
theorem deleteNic_not_always_success :
    deleteNic quietEnv [] (str "pod1") (str "ns1") (str "abc") emptyWorld = none ∧
      deleteNic bridgeDownEnv [] (str "pod1") (str "ns1") (str "abcdef0123456789") emptyWorld =
        some (.error (str
          "failed to delete ovs port exit status 1, ovs-vsctl: database connection failed"),
          emptyWorld.logged (.DelPort (str "abcdef012345_h"))) := by
  decide

/-- C1, amended: for a sandbox ID of at least 12 bytes, when the port removal,
the clearing of the bandwidth and the lookup of the host link do not fail for a
reason of their own: (a) `deleteNic` on a host with no link of the derived name
returns success, the absent link being no error; (b) when the deletion of a
link does not fail either, `deleteNic` returns success on any host state, and so
does a second `deleteNic` directly after a first one, whatever the first did. -/
theorem deleteNic_idempotent (env : Env) (netns podName podNamespace containerID : Str)
    (hlen : 12 ≤ containerID.length)
    (hport : ∀ log, env.fault log (.DelPort (containerID.take 12 ++ str "_h")) = none)
    (hclear : ∀ log, env.fault log (.ClearPodBandwidth podName podNamespace) = none)
    (hfind :
      ∀ log, env.fault log (.LinkByName hostNS (containerID.take 12 ++ str "_h")) = none) :
    (∀ w : World,
      (∀ l ∈ w.links, ¬ (l.Name = containerID.take 12 ++ str "_h" ∧ l.netns = hostNS)) →
      ∃ w', deleteNic env netns podName podNamespace containerID w = some (.ok (), w')) ∧
    ((∀ log i, env.fault log (.LinkDel i) = none) →
      (∀ w : World, ∃ w', deleteNic env netns podName podNamespace containerID w =
        some (.ok (), w')) ∧
      (∀ (env0 : Env) (w w1 : World) (r1 : Except Str Unit),
        deleteNic env0 netns podName podNamespace containerID w = some (r1, w1) →
        ∃ w2, deleteNic env netns podName podNamespace containerID w1 = some (.ok (), w2))) := by
  refine ⟨fun w habs => ?_, fun hdel => ⟨fun w => ?_, fun env0 w w1 r1 _ => ?_⟩⟩
  · exact deleteNic_succeeds env netns podName podNamespace containerID w hlen hport hclear hfind
      (Or.inl habs)
  · exact deleteNic_succeeds env netns podName podNamespace containerID w hlen hport hclear hfind
      (Or.inr hdel)
  · exact deleteNic_succeeds env netns podName podNamespace containerID w1 hlen hport hclear
      hfind (Or.inr hdel)

theorem deleteNic_idempotent_witness :
    (∃ w', deleteNic quietEnv [] (str "pod1") (str "ns1") (str "abcdef0123456789") emptyWorld =
      some (.ok (), w')) ∧
    ∃ w1 w2,
      deleteNic quietEnv [] (str "pod1") (str "ns1") (str "abcdef0123456789") attachedWorld =
        some (.ok (), w1) ∧
      deleteNic quietEnv [] (str "pod1") (str "ns1") (str "abcdef0123456789") w1 =
        some (.ok (), w2) := by
  have h := deleteNic_idempotent quietEnv [] (str "pod1") (str "ns1") (str "abcdef0123456789")
    (by decide) (fun _ => rfl) (fun _ => rfl) (fun _ => rfl)
  obtain ⟨w1, h1⟩ := (h.2 (fun _ _ => rfl)).1 attachedWorld
  obtain ⟨w2, h2⟩ := (h.2 (fun _ _ => rfl)).2 quietEnv attachedWorld w1 _ h1
  exact ⟨h.1 emptyWorld (by decide), w1, w2, h1, h2⟩

/-! ## Attach: failure of the bridge binding -/

theorem LinkDel_ports (env : Env) (cur : NetNS) (name : Str) (index : Nat) (w : World) :
    (LinkDel env cur name index w).2.ports = w.ports := by
  unfold LinkDel invoke
  simp only
  split
  · rfl
  · split <;> rfl

theorem LinkDel_index_log (env : Env) (cur : NetNS) (name : Str) (index : Nat) (w : World)
    (h0 : index ≠ 0) : (LinkDel env cur name index w).2.log = w.log ++ [.LinkDel index] := by
  have hi : ensureIndex w cur name index = index := by simp [ensureIndex, h0]
  unfold LinkDel invoke
  simp only [hi]
  split
  · rfl
  · dsimp only
    split <;> rfl

theorem LinkDel_index_links (env : Env) (cur : NetNS) (name : Str) (index : Nat) (w : World)
    (h0 : index ≠ 0) (hf : env.fault w.log (.LinkDel index) = none)
    (hhas : w.hasLink cur index = true) :
    (LinkDel env cur name index w).2.links =
      w.links.filter
        (fun l => ¬ (l.Index = index ∧ l.netns = cur) ∧ l.peer ≠ some index) := by
  have hi : ensureIndex w cur name index = index := by simp [ensureIndex, h0]
  unfold LinkDel
  simp only [hi]
  rw [invoke_run _ _ _ _ hf]
  simp only [logged_hasLink, hhas, if_true]
  rfl

theorem configureNic_veth (env : Env)
    (podName podNamespace netns containerID mac ip gateway ingress egress : Str) (w w1 : World)
    (veth : Nat) (hlen : 12 ≤ containerID.length)
    (hadd : LinkAdd env (containerID.take 12 ++ str "_h") (containerID.take 12 ++ str "_c")
      env.MTU w = (.ok veth, w1)) :
    configureNic env podName podNamespace netns containerID mac ip gateway ingress egress [] w =
      match configureNic.bind env podName podNamespace netns mac ip gateway ingress egress
          (containerID.take 12 ++ str "_h") (containerID.take 12 ++ str "_c") w1 with
      | (.error err, w) =>
        some (.error err, (LinkDel env hostNS (containerID.take 12 ++ str "_h") veth w).2)
      | (.ok _, w) => some (.ok (), w) := by
  unfold configureNic
  rw [generateNicName_long containerID hlen]
  simp only [ne_eq, not_true_eq_false, if_false, hadd]

/-- C2, counterexample: (a) the veth pair is created, the bridge tool then fails,
and the kernel refuses the deletion of the pair: `configureNic` returns the
error of the bridge tool and both links are still there; (b) on a host where
an earlier failed attach left the port `abcdef012345_h` on the bridge, the pair
is created, the bridge tool fails, the pair is deleted again, and the port
of the host link name is still on the bridge, since the rollback removes links
only. -/
theorem configureNic_rollback_can_fail :
    ((LinkAdd noRollbackEnv (str "abcdef012345_h") (str "abcdef012345_c") 1400 emptyWorld).1 =
        .ok 1 ∧
      (∃ err w', configureNic noRollbackEnv (str "pod1") (str "ns1") (str "/var/run/netns/x")
          (str "abcdef0123456789") (str "00:00:00:a1:b2:c3") (str "10.0.0.5/24")
          (str "10.0.0.1") [] [] [] emptyWorld = some (.error err, w') ∧
        err = str
          "add nic to ovs failed exit status 1: ovs-vsctl: database connection failed" ∧
        (w'.links.map Link.Name) = [str "abcdef012345_h", str "abcdef012345_c"])) ∧
    (stalePortWorld.links = [] ∧
      stalePortWorld.ports = [⟨str "abcdef012345_h", str "pod1.ns1"⟩] ∧
      (LinkAdd bridgeDownEnv (str "abcdef012345_h") (str "abcdef012345_c") 1400
        stalePortWorld).1 = .ok 1 ∧
      (∃ err w', configureNic bridgeDownEnv (str "pod1") (str "ns1") (str "/var/run/netns/x")
          (str "abcdef0123456789") (str "00:00:00:a1:b2:c3") (str "10.0.0.5/24")
          (str "10.0.0.1") [] [] [] stalePortWorld = some (.error err, w') ∧
        err = str
          "add nic to ovs failed exit status 1: ovs-vsctl: database connection failed" ∧
        w'.links = [] ∧ w'.ports = [⟨str "abcdef012345_h", str "pod1.ns1"⟩])) :=
  ⟨⟨by decide, _, _, rfl, by decide, by decide⟩,
    by decide, by decide, by decide, _, _, rfl, by decide, by decide, by decide⟩

/-- C2, amended: on the veth path, when the pair is created and the `add-port`
command then fails, `configureNic` returns an error whose text contains the
output of the bridge tool; it adds no port, so no port of the host link name is
left when none was there before the call (one that was there stays); and it
calls the deletion of the pair, dropping its result: when that deletion does
not fail, every link left was there before the call and none in the host
namespace has the host or the container link name. -/
theorem configureNic_AddPort_fails (env : Env)
    (podName podNamespace netns containerID mac ip gateway ingress egress : Str)
    (hostNicName containerNicName : Str) (w w1 w2 : World) (veth : Nat) (output err : Str)
    (hnames : generateNicName containerID = some (hostNicName, containerNicName))
    (hadd : LinkAdd env hostNicName containerNicName env.MTU w = (.ok veth, w1))
    (hport : AddPort env hostNicName (podName ++ str "." ++ podNamespace) w1 =
      ((output, some err), w2)) :
    ∃ text w', configureNic env podName podNamespace netns containerID mac ip gateway ingress
        egress [] w = some (.error text, w') ∧
      text = str "add nic to ovs failed " ++ err ++ str ": " ++ output ∧
      output <:+: text ∧
      w'.ports = w.ports ∧
      ((∀ p ∈ w.ports, p.name ≠ hostNicName) →
        ∀ p ∈ w'.ports, p.name ≠ hostNicName) ∧
      w'.log = w.log ++ [.LinkAdd hostNicName containerNicName env.MTU,
        .AddPort hostNicName (podName ++ str "." ++ podNamespace), .LinkDel veth] ∧
      (env.fault w2.log (.LinkDel veth) = none →
        (∀ l ∈ w'.links, l ∈ w.links) ∧
        ∀ l ∈ w'.links, l.netns = hostNS →
          l.Name ≠ hostNicName ∧ l.Name ≠ containerNicName) := by
  obtain ⟨hlen, rfl, rfl⟩ := generateNicName_some _ _ _ hnames
  obtain ⟨hn, hnames, hp1, hl1, hlinks⟩ := LinkAdd_ok hadd
  obtain ⟨hw2, _, _⟩ := AddPort_fail hport
  have h0 : veth ≠ 0 := by rw [hn]; unfold World.freshIndex; omega
  have hports : (LinkDel env hostNS (containerID.take 12 ++ str "_h") veth w2).2.ports =
      w.ports := by
    rw [LinkDel_ports, hw2]; simpa using hp1
  refine ⟨_, (LinkDel env hostNS (containerID.take 12 ++ str "_h") veth w2).2, ?_, rfl, ?_,
    hports, ?_, ?_, ?_⟩
  · rw [configureNic_veth env podName podNamespace netns containerID mac ip gateway ingress
      egress w w1 veth hlen hadd]
    unfold configureNic.bind
    rw [hport]
  · exact ⟨str "add nic to ovs failed " ++ err ++ str ": ", [], by simp⟩
  · intro hno p hp
    rw [hports] at hp
    exact hno p hp
  · rw [LinkDel_index_log _ _ _ _ _ h0]
    simp [hw2, hl1]
  · intro hf
    have hhas : w2.hasLink hostNS veth = true := by
      simp only [hw2, logged_hasLink, hasLink_iff, hlinks]
      exact ⟨_, List.mem_append_right _ (List.mem_cons_self _ _), rfl, rfl⟩
    rw [LinkDel_index_links _ _ _ _ _ h0 hf hhas]
    simp only [hw2, logged_links, hlinks]
    have hkeep : ∀ l, l ∈ (w.links ++
        [(⟨veth, containerID.take 12 ++ str "_h", hostNS, env.newHardwareAddr veth, false,
          env.MTU, [], some (veth + 1)⟩ : Link),
         ⟨veth + 1, containerID.take 12 ++ str "_c", hostNS, env.newHardwareAddr (veth + 1),
          false, env.MTU, [], some veth⟩]).filter
          (fun l => ¬ (l.Index = veth ∧ l.netns = hostNS) ∧ l.peer ≠ some veth) →
        l ∈ w.links := by
      intro l hl
      simp only [List.mem_filter, List.mem_append, List.mem_cons, List.mem_singleton,
        List.not_mem_nil, or_false, decide_eq_true_eq] at hl
      rcases hl with ⟨hmem | rfl | rfl, hcond⟩
      · exact hmem
      · exact absurd ⟨rfl, rfl⟩ hcond.1
      · exact absurd rfl hcond.2
    exact ⟨hkeep, fun l hl hns => hnames l (hkeep l hl) hns⟩

theorem configureNic_AddPort_fails_witness :
    ∃ text w', configureNic bridgeDownEnv (str "pod1") (str "ns1") (str "/var/run/netns/x")
        (str "abcdef0123456789") (str "00:00:00:a1:b2:c3") (str "10.0.0.5/24")
        (str "10.0.0.1") [] [] [] emptyWorld = some (.error text, w') ∧
      str "ovs-vsctl: database connection failed" <:+: text ∧ w'.ports = [] ∧
      ∀ l ∈ w'.links, l ∈ emptyWorld.links := by
  obtain ⟨text, w', h, _, hin, hp, _, _, hl⟩ := configureNic_AddPort_fails bridgeDownEnv
    (str "pod1") (str "ns1") (str "/var/run/netns/x") (str "abcdef0123456789")
    (str "00:00:00:a1:b2:c3") (str "10.0.0.5/24") (str "10.0.0.1") [] []
    (str "abcdef012345_h") (str "abcdef012345_c") emptyWorld
    (LinkAdd bridgeDownEnv (str "abcdef012345_h") (str "abcdef012345_c") 1400 emptyWorld).2
    (AddPort bridgeDownEnv (str "abcdef012345_h") (str "pod1.ns1")
      (LinkAdd bridgeDownEnv (str "abcdef012345_h") (str "abcdef012345_c") 1400 emptyWorld).2).2
    1 (str "ovs-vsctl: database connection failed") (str "exit status 1")
    (by decide) (by decide) (by decide)
  exact ⟨text, w', h, hin, hp, (hl rfl).1⟩

/-! ## Attach: the container link -/

theorem mem_modify_hit (links : List Link) (l : Link) (i : Nat) (cur : NetNS) (g : Link → Link)
    (hl : l ∈ links) (hi : l.Index = i) (hn : l.netns = cur) :
    g l ∈ links.map (fun l => if l.Index = i ∧ l.netns = cur then g l else l) := by
  have := List.mem_map_of_mem (fun l => if l.Index = i ∧ l.netns = cur then g l else l) hl
  simpa [hi, hn] using this

theorem mem_modify_miss {links : List Link} {l : Link} {i : Nat} {cur : NetNS} (g : Link → Link)
    (hl : l ∈ links) (hi : l.Index ≠ i) :
    l ∈ links.map (fun l => if l.Index = i ∧ l.netns = cur then g l else l) := by
  have := List.mem_map_of_mem (fun l => if l.Index = i ∧ l.netns = cur then g l else l) hl
  simpa [hi] using this

theorem Sysctl_ok {env : Env} {cur : NetNS} {name value : Str} {w w' : World} {u : Unit}
    (h : Sysctl env cur name value w = (.ok u, w')) :
    w'.links = w.links ∧ w'.routes = w.routes ∧ w'.ports = w.ports := by
  obtain ⟨_, h⟩ := invoke_ok h
  simp only [Prod.mk.injEq] at h
  obtain ⟨_, rfl⟩ := h
  exact ⟨rfl, rfl, rfl⟩

theorem LinkSetName_ok {env : Env} {cur : NetNS} {link : Link} {name : Str} {w w' : World}
    {u : Unit} (h : LinkSetName env cur link name w = (.ok u, w')) :
    w' = (w.logged (.LinkSetName link.Index name)).modifyLink cur link.Index
      (fun l => { l with Name := name }) (fun _ => rfl) := by
  obtain ⟨_, h⟩ := invoke_ok h
  split at h
  · cases h
  · split at h
    · simp only [Prod.mk.injEq] at h
      exact h.2.symm
    · cases h

theorem RouteAdd_ok {env : Env} {cur : NetNS} {route : Route} {w w' : World} {u : Unit}
    (h : RouteAdd env cur route w = (.ok u, w')) :
    w'.links = w.links ∧ w'.ports = w.ports ∧ w'.routes = w.routes ++ [(cur, route)] ∧
      (∀ r ∈ w.routes, ¬ (r.1 = cur ∧ r.2.Dst = route.Dst)) ∧
      w.hasLink cur route.LinkIndex = true := by
  obtain ⟨_, h⟩ := invoke_ok h
  split at h
  · cases h
  · rename_i hex
    split at h
    · rename_i hhas
      simp only [Prod.mk.injEq] at h
      obtain ⟨_, rfl⟩ := h
      refine ⟨rfl, rfl, rfl, ?_, by simpa using hhas⟩
      intro r hr hc
      apply hex
      simp only [logged_routes, List.any_eq_true, decide_eq_true_eq]
      exact ⟨r, hr, hc⟩
    · cases h

/-- What a successful `configureContainerNic` has done. -/
theorem configureContainerNic_ok {env : Env} {nicName ipAddr gateway : Str}
    {macAddr : HardwareAddr} {netns : Str} {w w' : World}
    (h : configureContainerNic env nicName ipAddr gateway macAddr netns w = (.ok (), w')) :
    ∃ containerLink : Link,
      w.links.find? (fun l => l.Name = nicName ∧ l.netns = hostNS) = some containerLink ∧
      w'.routes = w.routes ++ [(some netns, ⟨containerLink.Index, SCOPE_UNIVERSE,
        some (defaultNet (env.CheckProtocol ipAddr)), env.ParseIP gateway⟩)] ∧
      (∀ r ∈ w.routes,
        ¬ (r.1 = some netns ∧ r.2.Dst = some (defaultNet (env.CheckProtocol ipAddr)))) ∧
      w'.ports = w.ports ∧
      (∃ l ∈ w'.links, l.Index = containerLink.Index ∧ l.netns = some netns ∧
        l.Name = str "eth0" ∧ l.HardwareAddr = macAddr ∧ l.up = true) ∧
      (∀ l ∈ w.links, l.Index ≠ containerLink.Index → l ∈ w'.links) := by
  unfold configureContainerNic at h
  split at h
  · cases h
  · rename_i containerLink w1 h1
    obtain ⟨rfl, hmem, hname, hns, hfind⟩ := LinkByName_ok h1
    split at h
    · cases h
    · rename_i u2 w2 h2
      obtain ⟨_, rfl⟩ := linkSet_ok h2
      obtain ⟨_, h⟩ := invoke_ok h
      dsimp only at h
      split at h
      · cases h
      · rename_i u3 w3 h3
        have e3 := LinkSetName_ok h3
        split at h
        · cases h
        · rename_i u4 w4 h4
          have e4 : w4.links = w3.links ∧ w4.routes = w3.routes ∧ w4.ports = w3.ports := by
            cases hp : env.CheckProtocol ipAddr with
            | ProtocolIPv4 =>
              rw [hp] at h4
              simp only [Prod.mk.injEq] at h4
              obtain ⟨_, rfl⟩ := h4
              exact ⟨rfl, rfl, rfl⟩
            | ProtocolIPv6 =>
              rw [hp] at h4
              exact Sysctl_ok h4
          split at h
          · cases h
          · rename_i addr haddr
            split at h
            · cases h
            · rename_i u5 w5 h5
              obtain ⟨_, e5⟩ := linkSet_ok h5
              split at h
              · cases h
              · rename_i u6 w6 h6
                obtain ⟨_, e6⟩ := linkSet_ok h6
                split at h
                · cases h
                · rename_i u7 w7 h7
                  obtain ⟨_, e7⟩ := linkSet_ok h7
                  split at h
                  · cases h
                  · rename_i u8 w8 h8
                    simp only [Prod.mk.injEq, true_and] at h
                    subst h
                    have e8 : w8.links = w7.links ∧ w8.ports = w7.ports ∧
                        w8.routes = w7.routes ++ [(some netns, ⟨containerLink.Index,
                          SCOPE_UNIVERSE, some (defaultNet (env.CheckProtocol ipAddr)),
                          env.ParseIP gateway⟩)] ∧
                        (∀ r ∈ w7.routes, ¬ (r.1 = some netns ∧
                          r.2.Dst = some (defaultNet (env.CheckProtocol ipAddr)))) := by
                      cases hp : env.CheckProtocol ipAddr with
                      | ProtocolIPv4 =>
                        rw [hp] at h8
                        obtain ⟨a, b, c, d, _⟩ := RouteAdd_ok h8
                        exact ⟨a, b, c, d⟩
                      | ProtocolIPv6 =>
                        rw [hp] at h8
                        obtain ⟨a, b, c, d, _⟩ := RouteAdd_ok h8
                        exact ⟨a, b, c, d⟩
                    have r7 : w7.routes = w.routes := by
                      rw [e7, e6, e5]; simp [e4.2.1, e3]
                    have p7 : w7.ports = w.ports := by
                      rw [e7, e6, e5]; simp [e4.2.2, e3]
                    refine ⟨containerLink, hfind, ?_, ?_, ?_, ?_, ?_⟩
                    · rw [e8.2.2.1, r7]
                    · rw [← r7]; exact e8.2.2.2
                    · rw [e8.2.1, p7]
                    · have m1 := mem_modify_hit w.links containerLink containerLink.Index hostNS
                        (fun l => { l with netns := some netns, up := false, addrs := [] })
                        hmem rfl hns
                      have m2 := mem_modify_hit _ _ containerLink.Index (some netns)
                        (fun l => { l with Name := str "eth0" }) m1 rfl rfl
                      have m3 := mem_modify_hit _ _ containerLink.Index (some netns)
                        (fun l => { l with
                          addrs := if addr ∈ l.addrs then l.addrs else l.addrs ++ [addr] })
                        m2 rfl rfl
                      have m4 := mem_modify_hit _ _ containerLink.Index (some netns)
                        (fun l => { l with HardwareAddr := macAddr }) m3 rfl rfl
                      have m5 := mem_modify_hit _ _ containerLink.Index (some netns)
                        (fun l => { l with up := true }) m4 rfl rfl
                      refine ⟨?l, ?hm, ?hp⟩
                      case hm =>
                        rw [e8.1, e7, e6, e5]
                        simp only [modifyLink_links, logged_links, e4.1, e3]
                        exact m5
                      case hp => exact ⟨rfl, rfl, rfl, rfl, rfl⟩
                    · intro l hl hne
                      rw [e8.1, e7, e6, e5]
                      simp only [modifyLink_links, logged_links, e4.1, e3]
                      exact mem_modify_miss _ (mem_modify_miss _ (mem_modify_miss _
                        (mem_modify_miss _ (mem_modify_miss _ hl hne) hne) hne) hne) hne

/-- C5, counterexample: the gateway field `nope` is no IP address;
`configureContainerNic` succeeds all the same, and the one route it has added
has no gateway. -/
theorem configureContainerNic_unparsed_gateway :
    quietEnv.ParseIP (str "nope") = none ∧
      (configureContainerNic quietEnv (str "abcdef012345_c") (str "10.0.0.5/24") (str "nope")
          [0, 0, 0, 161, 178, 195] (str "/var/run/netns/x") vethWorld).1 = .ok () ∧
      (configureContainerNic quietEnv (str "abcdef012345_c") (str "10.0.0.5/24") (str "nope")
          [0, 0, 0, 161, 178, 195] (str "/var/run/netns/x") vethWorld).2.routes =
        [(some (str "/var/run/netns/x"),
          ⟨2, SCOPE_UNIVERSE, some ⟨[0, 0, 0, 0], [0, 0, 0, 0]⟩, none⟩)] := by
  decide

/-- C5, amended: when `configureContainerNic` succeeds it has added one route,
in the namespace of the container and on the container link: its destination is
0.0.0.0/0 when `CheckProtocol` gives IPv4 for the address and ::/0 when it
gives IPv6, its scope is universe (0), and its gateway is the address the gateway
field of the request parses to; when the field is no IP address the route has
no gateway.  The namespace had no route to that destination before, so it has
exactly one afterwards. -/
theorem configureContainerNic_default_route (env : Env) (nicName ipAddr gateway : Str)
    (macAddr : HardwareAddr) (netns : Str) (w w' : World)
    (h : configureContainerNic env nicName ipAddr gateway macAddr netns w = (.ok (), w')) :
    ∃ (containerLink : Link) (route : Route),
      w.links.find? (fun l => l.Name = nicName ∧ l.netns = hostNS) = some containerLink ∧
      w'.routes = w.routes ++ [(some netns, route)] ∧
      w'.routes.filter (fun r => r.1 = some netns ∧ r.2.Dst = route.Dst) =
        [(some netns, route)] ∧
      route.LinkIndex = containerLink.Index ∧
      (∃ l ∈ w'.links, l.Index = route.LinkIndex ∧ l.netns = some netns ∧
        l.Name = str "eth0") ∧
      (env.CheckProtocol ipAddr = .ProtocolIPv4 →
        route.Dst = some ⟨[0, 0, 0, 0], [0, 0, 0, 0]⟩) ∧
      (env.CheckProtocol ipAddr = .ProtocolIPv6 →
        route.Dst = some ⟨[0, 0, 0, 0, 0, 0, 0, 0, 0, 0, 0, 0, 0, 0, 0, 0],
          [0, 0, 0, 0, 0, 0, 0, 0, 0, 0, 0, 0, 0, 0, 0, 0]⟩) ∧
      route.Scope = 0 ∧
      (∀ gw, env.ParseIP gateway = some gw → route.Gw = some gw) ∧
      (env.ParseIP gateway = none → route.Gw = none) := by
  obtain ⟨containerLink, hfind, hroutes, hnone, _, ⟨l, hl, hi, hn, hname, _, _⟩, _⟩ :=
    configureContainerNic_ok h
  refine ⟨containerLink, _, hfind, hroutes, ?_, rfl, ⟨l, hl, hi, hn, hname⟩, ?_, ?_, rfl,
    fun gw hgw => hgw, fun hgw => hgw⟩
  · rw [hroutes, List.filter_append]
    have : w.routes.filter (fun r => r.1 = some netns ∧
        r.2.Dst = some (defaultNet (env.CheckProtocol ipAddr))) = [] := by
      simp only [List.filter_eq_nil_iff, decide_eq_true_eq]
      exact hnone
    rw [this]
    simp
  · intro hp; simp [hp, defaultNet, defaultNet4]
  · intro hp; simp [hp, defaultNet, defaultNet6]

theorem configureContainerNic_default_route_witness :
    (∃ (containerLink : Link) (route : Route),
      vethWorld.links.find? (fun l => l.Name = str "abcdef012345_c" ∧ l.netns = hostNS) =
        some containerLink ∧
      (configureContainerNic quietEnv (str "abcdef012345_c") (str "10.0.0.5/24")
          (str "10.0.0.1") [0, 0, 0, 161, 178, 195] (str "/var/run/netns/x") vethWorld).2.routes =
        vethWorld.routes ++ [(some (str "/var/run/netns/x"), route)] ∧
      route.Dst = some ⟨[0, 0, 0, 0], [0, 0, 0, 0]⟩ ∧
      route.Gw = some [0, 0, 0, 0, 0, 0, 0, 0, 0, 0, 255, 255, 10, 0, 0, 1]) ∧
    (∃ (containerLink : Link) (route : Route),
      vethWorld.links.find? (fun l => l.Name = str "abcdef012345_c" ∧ l.netns = hostNS) =
        some containerLink ∧
      (configureContainerNic quietEnv (str "abcdef012345_c") (str "fd00::5/64")
          (str "fd00::1") [0, 0, 0, 161, 178, 195] (str "/var/run/netns/x") vethWorld).2.routes =
        vethWorld.routes ++ [(some (str "/var/run/netns/x"), route)] ∧
      route.Dst = some ⟨[0, 0, 0, 0, 0, 0, 0, 0, 0, 0, 0, 0, 0, 0, 0, 0],
        [0, 0, 0, 0, 0, 0, 0, 0, 0, 0, 0, 0, 0, 0, 0, 0]⟩ ∧
      route.Gw = some [253, 0, 0, 0, 0, 0, 0, 0, 0, 0, 0, 0, 0, 0, 0, 1]) := by
  have hok4 : configureContainerNic quietEnv (str "abcdef012345_c") (str "10.0.0.5/24")
      (str "10.0.0.1") [0, 0, 0, 161, 178, 195] (str "/var/run/netns/x") vethWorld =
      (.ok (), (configureContainerNic quietEnv (str "abcdef012345_c") (str "10.0.0.5/24")
        (str "10.0.0.1") [0, 0, 0, 161, 178, 195] (str "/var/run/netns/x") vethWorld).2) := by
    decide
  have hok6 : configureContainerNic quietEnv (str "abcdef012345_c") (str "fd00::5/64")
      (str "fd00::1") [0, 0, 0, 161, 178, 195] (str "/var/run/netns/x") vethWorld =
      (.ok (), (configureContainerNic quietEnv (str "abcdef012345_c") (str "fd00::5/64")
        (str "fd00::1") [0, 0, 0, 161, 178, 195] (str "/var/run/netns/x") vethWorld).2) := by
    decide
  obtain ⟨l4, r4, a1, a2, _, _, _, a4, _, _, ag, _⟩ := configureContainerNic_default_route
    quietEnv (str "abcdef012345_c") (str "10.0.0.5/24") (str "10.0.0.1")
    [0, 0, 0, 161, 178, 195] (str "/var/run/netns/x") vethWorld _ hok4
  obtain ⟨l6, r6, b1, b2, _, _, _, _, b6, _, bg, _⟩ := configureContainerNic_default_route
    quietEnv (str "abcdef012345_c") (str "fd00::5/64") (str "fd00::1")
    [0, 0, 0, 161, 178, 195] (str "/var/run/netns/x") vethWorld _ hok6
  exact ⟨⟨l4, r4, a1, a2, a4 (by decide), ag _ (by decide)⟩,
    ⟨l6, r6, b1, b2, b6 (by decide), bg _ (by decide)⟩⟩

/-- What a successful `configureHostNic` has done. -/
theorem configureHostNic_ok {env : Env} {nicName : Str} {macAddr : HardwareAddr} {w w' : World}
    (h : configureHostNic env nicName macAddr w = (.ok (), w')) :
    ∃ l ∈ w'.links, l.Name = nicName ∧ l.netns = hostNS ∧ l.HardwareAddr = macAddr := by
  unfold configureHostNic at h
  split at h
  · cases h
  · rename_i hostLink w1 h1
    obtain ⟨rfl, hmem, hname, hns, _⟩ := LinkByName_ok h1
    split at h
    · cases h
    · rename_i u2 w2 h2
      obtain ⟨_, e2⟩ := linkSet_ok h2
      split at h
      · cases h
      · rename_i u3 w3 h3
        obtain ⟨_, e3⟩ := linkSet_ok h3
        simp only [Prod.mk.injEq, true_and] at h
        subst h
        have m1 := mem_modify_hit w.links hostLink hostLink.Index hostNS
          (fun l => { l with HardwareAddr := macAddr }) hmem rfl hns
        have m2 := mem_modify_hit _ _ hostLink.Index hostNS
          (fun l => { l with up := true }) m1 rfl hns
        refine ⟨?l, ?hm, ?hp⟩
        case hm =>
          rw [e3, e2]
          simp only [modifyLink_links, logged_links]
          exact m2
        case hp => exact ⟨hname, hns, rfl⟩

theorem AddPort_ok {env : Env} {port ifaceID : Str} {w w' : World} {output : Str}
    (h : AddPort env port ifaceID w = ((output, none), w')) : w'.links = w.links := by
  unfold AddPort at h
  split at h
  · simp at h
  · simp only [Prod.mk.injEq] at h
    rw [← h.2]
    rfl

theorem SetPodBandwidth_ok {env : Env} {podName podNamespace ingress egress : Str}
    {w w' : World} {u : Unit}
    (h : SetPodBandwidth env podName podNamespace ingress egress w = (.ok u, w')) :
    w'.links = w.links := by
  obtain ⟨_, h⟩ := invoke_ok h
  simp only [Prod.mk.injEq] at h
  rw [← h.2]
  rfl

theorem GetNS_ok {env : Env} {path podNS : Str} {w w' : World}
    (h : GetNS env path w = (.ok podNS, w')) : podNS = path ∧ w'.links = w.links := by
  obtain ⟨_, h⟩ := invoke_ok h
  simp only [Prod.mk.injEq, Except.ok.injEq] at h
  exact ⟨h.1.symm, by rw [← h.2]; rfl⟩

/-- What a successful binding has done: both ends carry the parsed hardware
address. -/
theorem bind_ok {env : Env}
    {podName podNamespace netns mac ip gateway ingress egress hostNicName containerNicName : Str}
    {w w' : World} (hne : hostNicName ≠ containerNicName)
    (h : configureNic.bind env podName podNamespace netns mac ip gateway ingress egress
      hostNicName containerNicName w = (.ok (), w')) :
    ∃ macAddr, env.ParseMAC mac = .ok macAddr ∧
      ∃ hostLink ∈ w'.links, ∃ containerLink ∈ w'.links,
        hostLink.Name = hostNicName ∧ hostLink.netns = hostNS ∧
        hostLink.HardwareAddr = macAddr ∧
        containerLink.Name = str "eth0" ∧ containerLink.netns = some netns ∧
        containerLink.HardwareAddr = macAddr := by
  unfold configureNic.bind at h
  split at h
  · cases h
  · rename_i out w1 h1
    have l1 := AddPort_ok h1
    split at h
    · cases h
    · rename_i macAddr hmac
      split at h
      · cases h
      · rename_i u2 w2 h2
        obtain ⟨hl, hlmem, hlname, hlns, hlmac⟩ := configureHostNic_ok h2
        split at h
        · cases h
        · rename_i u3 w3 h3
          have l3 := SetPodBandwidth_ok h3
          split at h
          · cases h
          · rename_i podNS w4 h4
            obtain ⟨rfl, l4⟩ := GetNS_ok h4
            split at h
            · cases h
            · rename_i u5 w5 h5
              simp only [Prod.mk.injEq, true_and] at h
              subst h
              obtain ⟨cl, hfind, _, _, _, ⟨c, hcmem, _, hcns, hcname, hcmac, _⟩, hframe⟩ :=
                configureContainerNic_ok h5
              have hcl := List.find?_some hfind
              simp only [decide_eq_true_eq] at hcl
              have hclmem : cl ∈ w2.links := by
                rw [← l3, ← l4]; exact List.mem_of_find?_eq_some hfind
              have hwf2 : (w2.links.map Link.Index).Nodup := w2.distinct
              have hidxne : hl.Index ≠ cl.Index := by
                intro he
                have := List.inj_on_of_nodup_map hwf2 hlmem hclmem he
                rw [this] at hlname
                exact hne (hlname.symm.trans hcl.1)
              refine ⟨macAddr, hmac, hl, hframe hl (by rw [l4, l3]; exact hlmem) hidxne, c, hcmem,
                hlname, hlns, hlmac, hcname, hcns, hcmac⟩

/-- `configureNic.bind` returns an error when the hardware address does not
parse. -/
theorem bind_bad_mac (env : Env)
    (podName podNamespace netns mac ip gateway ingress egress hostNicName containerNicName : Str)
    (w : World) (e : Str) (hmac : env.ParseMAC mac = .error e) :
    ∃ text w', configureNic.bind env podName podNamespace netns mac ip gateway ingress egress
      hostNicName containerNicName w = (.error text, w') := by
  unfold configureNic.bind
  split
  · exact ⟨_, _, rfl⟩
  · rw [hmac]
    exact ⟨_, _, rfl⟩

/-- C9, counterexample: on the three-byte sandbox ID `abc` with a hardware
address that does not parse, `configureNic` panics; it returns no error. -/
theorem configureNic_short_id_bad_mac :
    quietEnv.ParseMAC (str "zz") = .error (str "invalid MAC address") ∧
      configureNic quietEnv (str "pod1") (str "ns1") (str "/var/run/netns/x") (str "abc")
        (str "zz") (str "10.0.0.5/24") (str "10.0.0.1") [] [] [] emptyWorld = none := by
  decide

/-- C9, amended: after every successful `configureNic` the host link and the
container link (`eth0` in the namespace of the container) carry the same
hardware address, the one parsed from the request; for a sandbox ID of at
least 12 bytes a request whose hardware address does not parse makes
`configureNic` return an error; and on no sandbox ID does such a request make
`configureNic` succeed. -/
theorem configureNic_same_mac (env : Env)
    (podName podNamespace netns containerID mac ip gateway ingress egress pciAddrs : Str)
    (w : World) :
    (∀ w',
      configureNic env podName podNamespace netns containerID mac ip gateway ingress egress
        pciAddrs w = some (.ok (), w') →
      ∃ macAddr, env.ParseMAC mac = .ok macAddr ∧
        ∃ hostLink ∈ w'.links, ∃ containerLink ∈ w'.links,
          hostLink.Name = containerID.take 12 ++ str "_h" ∧ hostLink.netns = hostNS ∧
          hostLink.HardwareAddr = macAddr ∧
          containerLink.Name = str "eth0" ∧ containerLink.netns = some netns ∧
          containerLink.HardwareAddr = macAddr) ∧
    (12 ≤ containerID.length → ∀ e, env.ParseMAC mac = .error e →
      ∃ text w', configureNic env podName podNamespace netns containerID mac ip gateway ingress
        egress pciAddrs w = some (.error text, w')) ∧
    (∀ e, env.ParseMAC mac = .error e → ∀ w',
      configureNic env podName podNamespace netns containerID mac ip gateway ingress egress
        pciAddrs w ≠ some (.ok (), w')) := by
  have hbad : 12 ≤ containerID.length → ∀ e, env.ParseMAC mac = .error e →
      ∃ text w', configureNic env podName podNamespace netns containerID mac ip gateway ingress
        egress pciAddrs w = some (.error text, w') := by
    intro hlen e hmac
    unfold configureNic
    rw [generateNicName_long containerID hlen]
    dsimp only
    split
    · split
      · exact ⟨_, _, rfl⟩
      · rename_i u w1 h1
        obtain ⟨text, w', hb⟩ := bind_bad_mac env podName podNamespace netns mac ip gateway
          ingress egress (containerID.take 12 ++ str "_h") (containerID.take 12 ++ str "_c")
          w1 e hmac
        exact ⟨text, w', by rw [hb]⟩
    · split
      · exact ⟨_, _, rfl⟩
      · rename_i veth w1 h1
        obtain ⟨text, w', hb⟩ := bind_bad_mac env podName podNamespace netns mac ip gateway
          ingress egress (containerID.take 12 ++ str "_h") (containerID.take 12 ++ str "_c")
          w1 e hmac
        rw [hb]
        exact ⟨_, _, rfl⟩
  refine ⟨?_, hbad, ?_⟩
  rotate_left
  · intro e hmac w' hok
    by_cases hlen : 12 ≤ containerID.length
    · obtain ⟨text, w2, herr⟩ := hbad hlen e hmac
      rw [herr] at hok
      cases hok
    · have hnone : generateNicName containerID = none := by
        simp [generateNicName, slice_short containerID 12 (by omega)]
      unfold configureNic at hok
      rw [hnone] at hok
      cases hok
  · intro w' h
    unfold configureNic at h
    split at h
    · cases h
    · rename_i hostNicName containerNicName hg
      obtain ⟨hlen, rfl, rfl⟩ := generateNicName_some _ _ _ hg
      have hne : containerID.take 12 ++ str "_h" ≠ containerID.take 12 ++ str "_c" :=
        suffix_h_ne_c _ _ (by simp [hlen]) (by simp [hlen])
      split at h
      · split at h
        · cases h
        · rename_i u w1 h1
          simp only [Option.some.injEq] at h
          exact bind_ok hne h
      · split at h
        · cases h
        · rename_i veth w1 h1
          split at h
          · cases h
          · rename_i u w2 h2
            simp only [Option.some.injEq, Prod.mk.injEq, true_and] at h
            subst h
            exact bind_ok hne h2

theorem configureNic_same_mac_witness :
    (∃ macAddr, quietEnv.ParseMAC (str "00:00:00:a1:b2:c3") = .ok macAddr ∧
      ∃ hostLink ∈ attachedWorld.links, ∃ containerLink ∈ attachedWorld.links,
        hostLink.Name = (str "abcdef0123456789").take 12 ++ str "_h" ∧
        hostLink.netns = hostNS ∧ hostLink.HardwareAddr = macAddr ∧
        containerLink.Name = str "eth0" ∧
        containerLink.netns = some (str "/var/run/netns/x") ∧
        containerLink.HardwareAddr = macAddr) ∧
    ∃ text w', configureNic quietEnv (str "pod1") (str "ns1") (str "/var/run/netns/x")
      (str "abcdef0123456789") (str "zz") (str "10.0.0.5/24") (str "10.0.0.1") [] [] []
      emptyWorld = some (.error text, w') :=
  ⟨(configureNic_same_mac quietEnv (str "pod1") (str "ns1") (str "/var/run/netns/x")
      (str "abcdef0123456789") (str "00:00:00:a1:b2:c3") (str "10.0.0.5/24") (str "10.0.0.1")
      [] [] [] emptyWorld).1 attachedWorld (by decide),
    (configureNic_same_mac quietEnv (str "pod1") (str "ns1") (str "/var/run/netns/x")
      (str "abcdef0123456789") (str "zz") (str "10.0.0.5/24") (str "10.0.0.1")
      [] [] [] emptyWorld).2.1 (by decide) _ rfl⟩

end KubeOvn
